import Mathlib

/-!
Verification development for the tiled navigation-mesh runtime
(DetourNavMesh.cpp and DetourTileCache.cpp).

The C++ sources are shallowly embedded: machine integers become Nat with
explicit reductions modulo powers of two where the code relies on wrapping,
intrusive singly-linked link chains become Lean lists of their nodes (the
chain order of the list is the traversal order of the chain), and fallible
operations return a status word together with the successor state.
Floating-point geometry is embedded over the rationals; all concrete
inputs used below are small integers, on which 32-bit float arithmetic is
exact.

Declarations carrying a comment starting with "Modelled from the spec:"
embed code of this repository that is not among the given sources (the
public headers and the tile-data builder); they follow the specification
text.
-/

namespace Detour

/-- Modelled from the spec: status words carry a success/failure bit plus a
detail code (DT_WRONG_MAGIC, DT_WRONG_VERSION, DT_OUT_OF_MEMORY,
DT_INVALID_PARAM, DT_ALREADY_OCCUPIED, DT_BUFFER_TOO_SMALL).  The concrete
bit positions come from the public header DetourStatus.h. -/
def DT_FAILURE : Nat := 2 ^ 31

/-- Modelled from the spec: the success bit of a status word. -/
def DT_SUCCESS : Nat := 2 ^ 30

/-- Modelled from the spec: detail bit for a magic-number mismatch. -/
def DT_WRONG_MAGIC : Nat := 1

/-- Modelled from the spec: detail bit for a version mismatch. -/
def DT_WRONG_VERSION : Nat := 2

/-- Modelled from the spec: detail bit for allocation failure. -/
def DT_OUT_OF_MEMORY : Nat := 4

/-- Modelled from the spec: detail bit for an invalid input parameter. -/
def DT_INVALID_PARAM : Nat := 8

/-- Modelled from the spec: detail bit for a too-small output buffer. -/
def DT_BUFFER_TOO_SMALL : Nat := 16

/-- Modelled from the spec: detail bit for adding a tile at an occupied
location. -/
def DT_ALREADY_OCCUPIED : Nat := 128

/-- Modelled from the spec: a status denotes failure iff its failure bit is
set. -/
def dtStatusFailed (s : Nat) : Bool := s &&& DT_FAILURE ≠ 0

/-- Modelled from the spec: a status denotes success iff its success bit is
set. -/
def dtStatusSucceed (s : Nat) : Bool := s &&& DT_SUCCESS ≠ 0

/-- Modelled from the spec: external-link marker bit on a polygon edge
neighbour code (DT_EXT_LINK in DetourNavMesh.h). -/
def DT_EXT_LINK : Nat := 0x8000

/-- Modelled from the spec: polygon type tag for off-mesh connection
polygons (DT_POLYTYPE_OFFMESH_CONNECTION); ground polygons have type 0. -/
def DT_POLYTYPE_OFFMESH_CONNECTION : Nat := 1

/-- Modelled from the spec: magic number of a mesh tile payload header. -/
def DT_NAVMESH_MAGIC : Int := 0x444E4156

/-- Modelled from the spec: version number of a mesh tile payload header. -/
def DT_NAVMESH_VERSION : Int := 7

/-- Modelled from the spec: magic number of a tile state blob. -/
def DT_NAVMESH_STATE_MAGIC : Int := 0x444E4D53

/-- Modelled from the spec: version number of a tile state blob. -/
def DT_NAVMESH_STATE_VERSION : Int := 1

/-- Modelled from the spec: a PolyRef packs three bit fields, from most to
least significant: salt, tile index, polygon index.  The encoder shifts and
ors the fields inside a 32-bit word (encodePolyId in DetourNavMesh.h). -/
def encodePolyId (tileBits polyBits salt it ip : Nat) : Nat :=
  (salt <<< (polyBits + tileBits) ||| it <<< polyBits ||| ip) % 2 ^ 32

/-- Modelled from the spec: extract the salt field of a PolyRef. -/
def decodePolyIdSalt (saltBits tileBits polyBits ref : Nat) : Nat :=
  (ref >>> (polyBits + tileBits)) &&& (2 ^ saltBits - 1)

/-- Modelled from the spec: extract the tile-index field of a PolyRef. -/
def decodePolyIdTile (tileBits polyBits ref : Nat) : Nat :=
  (ref >>> polyBits) &&& (2 ^ tileBits - 1)

/-- Modelled from the spec: extract the polygon-index field of a PolyRef. -/
def decodePolyIdPoly (polyBits ref : Nat) : Nat :=
  ref &&& (2 ^ polyBits - 1)

/-- Salt update applied on every free of a salted slot: increment masked to
the salt field width, then replace a resulting zero by one
(DetourNavMesh.cpp removeTile, DetourTileCache.cpp removeTile and the
obstacle REMOVING-to-EMPTY transition all follow this pattern). -/
def bumpSalt (saltBits salt : Nat) : Nat :=
  if (salt + 1) &&& (2 ^ saltBits - 1) = 0 then 1
  else (salt + 1) &&& (2 ^ saltBits - 1)

theorem bumpSalt_ne_zero (saltBits salt : Nat) : bumpSalt saltBits salt ≠ 0 := by
  unfold bumpSalt
  split
  · exact one_ne_zero
  · assumption

theorem bumpSalt_eq_mod (saltBits salt : Nat) :
    bumpSalt saltBits salt =
      if (salt + 1) % 2 ^ saltBits = 0 then 1 else (salt + 1) % 2 ^ saltBits := by
  unfold bumpSalt
  rw [Nat.and_pow_two_sub_one_eq_mod]

theorem lor_shiftLeft_add (a b k : Nat) (hb : b < 2 ^ k) :
    a <<< k ||| b = a * 2 ^ k + b := by
  apply Nat.eq_of_testBit_eq
  intro i
  rw [Nat.testBit_lor, Nat.testBit_shiftLeft, Nat.mul_comm a (2 ^ k),
    Nat.testBit_mul_pow_two_add a hb]
  rcases Nat.lt_or_ge i k with h | h
  · simp [h, Nat.not_le.mpr h]
  · have hbf : b.testBit i = false :=
      Nat.testBit_lt_two_pow (lt_of_lt_of_le hb (Nat.pow_le_pow_right (by norm_num) h))
    simp [h, Nat.not_lt.mpr h, hbf]

theorem encodePolyId_eq (tileBits polyBits salt it ip : Nat)
    (hit : it < 2 ^ tileBits) (hip : ip < 2 ^ polyBits) :
    encodePolyId tileBits polyBits salt it ip =
      (salt * 2 ^ (polyBits + tileBits) + it * 2 ^ polyBits + ip) % 2 ^ 32 := by
  unfold encodePolyId
  have h1 : salt <<< (polyBits + tileBits) ||| it <<< polyBits =
      salt * 2 ^ (polyBits + tileBits) + it * 2 ^ polyBits := by
    rw [Nat.shiftLeft_eq it, lor_shiftLeft_add]
    calc it * 2 ^ polyBits < 2 ^ tileBits * 2 ^ polyBits :=
          mul_lt_mul_of_pos_right hit (by positivity)
      _ = 2 ^ (polyBits + tileBits) := by rw [← Nat.pow_add, Nat.add_comm]
  have h2 : salt * 2 ^ (polyBits + tileBits) + it * 2 ^ polyBits =
      (salt * 2 ^ tileBits + it) * 2 ^ polyBits := by
    rw [Nat.pow_add]
    ring
  rw [h1, h2, ← Nat.shiftLeft_eq, lor_shiftLeft_add _ _ _ hip, Nat.shiftLeft_eq]

theorem encodePolyId_lt (saltBits tileBits polyBits salt it ip : Nat)
    (hsalt : salt < 2 ^ saltBits) (hit : it < 2 ^ tileBits) (hip : ip < 2 ^ polyBits) :
    salt * 2 ^ (polyBits + tileBits) + it * 2 ^ polyBits + ip <
      2 ^ (saltBits + tileBits + polyBits) := by
  have h1 : it * 2 ^ polyBits + ip < 2 ^ (polyBits + tileBits) := by
    calc it * 2 ^ polyBits + ip < it * 2 ^ polyBits + 2 ^ polyBits := by omega
      _ = (it + 1) * 2 ^ polyBits := by ring
      _ ≤ 2 ^ tileBits * 2 ^ polyBits := Nat.mul_le_mul_right _ hit
      _ = 2 ^ (polyBits + tileBits) := by rw [← Nat.pow_add, Nat.add_comm]
  calc salt * 2 ^ (polyBits + tileBits) + it * 2 ^ polyBits + ip
      < salt * 2 ^ (polyBits + tileBits) + 2 ^ (polyBits + tileBits) := by omega
    _ = (salt + 1) * 2 ^ (polyBits + tileBits) := by ring
    _ ≤ 2 ^ saltBits * 2 ^ (polyBits + tileBits) := Nat.mul_le_mul_right _ hsalt
    _ = 2 ^ (saltBits + tileBits + polyBits) := by
        rw [← Nat.pow_add]
        congr 1
        omega

theorem decodePolyIdTile_encode (saltBits tileBits polyBits salt it ip : Nat)
    (hsalt : salt < 2 ^ saltBits) (hit : it < 2 ^ tileBits) (hip : ip < 2 ^ polyBits)
    (hw : saltBits + tileBits + polyBits ≤ 32) :
    decodePolyIdTile tileBits polyBits (encodePolyId tileBits polyBits salt it ip) = it := by
  rw [encodePolyId_eq _ _ _ _ _ hit hip]
  have hlt := encodePolyId_lt saltBits tileBits polyBits salt it ip hsalt hit hip
  have h32 : salt * 2 ^ (polyBits + tileBits) + it * 2 ^ polyBits + ip < 2 ^ 32 :=
    lt_of_lt_of_le hlt (Nat.pow_le_pow_right (by norm_num) hw)
  rw [Nat.mod_eq_of_lt h32]
  unfold decodePolyIdTile
  rw [Nat.shiftRight_eq_div_pow, Nat.and_pow_two_sub_one_eq_mod]
  have hdiv : (salt * 2 ^ (polyBits + tileBits) + it * 2 ^ polyBits + ip) / 2 ^ polyBits =
      salt * 2 ^ tileBits + it := by
    have : salt * 2 ^ (polyBits + tileBits) + it * 2 ^ polyBits + ip =
        2 ^ polyBits * (salt * 2 ^ tileBits + it) + ip := by
      rw [Nat.pow_add]
      ring
    rw [this, Nat.mul_add_div (Nat.pos_pow_of_pos polyBits (by norm_num)),
      Nat.div_eq_of_lt hip, Nat.add_zero]
  rw [hdiv, Nat.mul_comm salt (2 ^ tileBits), Nat.mul_add_mod, Nat.mod_eq_of_lt hit]

theorem decodePolyIdSalt_encode (saltBits tileBits polyBits salt it ip : Nat)
    (hsalt : salt < 2 ^ saltBits) (hit : it < 2 ^ tileBits) (hip : ip < 2 ^ polyBits)
    (hw : saltBits + tileBits + polyBits ≤ 32) :
    decodePolyIdSalt saltBits tileBits polyBits (encodePolyId tileBits polyBits salt it ip) =
      salt := by
  rw [encodePolyId_eq _ _ _ _ _ hit hip]
  have hlt := encodePolyId_lt saltBits tileBits polyBits salt it ip hsalt hit hip
  have h32 : salt * 2 ^ (polyBits + tileBits) + it * 2 ^ polyBits + ip < 2 ^ 32 :=
    lt_of_lt_of_le hlt (Nat.pow_le_pow_right (by norm_num) hw)
  rw [Nat.mod_eq_of_lt h32]
  unfold decodePolyIdSalt
  rw [Nat.shiftRight_eq_div_pow, Nat.and_pow_two_sub_one_eq_mod]
  have hrest : it * 2 ^ polyBits + ip < 2 ^ (polyBits + tileBits) := by
    calc it * 2 ^ polyBits + ip < it * 2 ^ polyBits + 2 ^ polyBits := by omega
      _ = (it + 1) * 2 ^ polyBits := by ring
      _ ≤ 2 ^ tileBits * 2 ^ polyBits := Nat.mul_le_mul_right _ hit
      _ = 2 ^ (polyBits + tileBits) := by rw [← Nat.pow_add, Nat.add_comm]
  have hdiv : (salt * 2 ^ (polyBits + tileBits) + it * 2 ^ polyBits + ip) /
      2 ^ (polyBits + tileBits) = salt := by
    have heq : salt * 2 ^ (polyBits + tileBits) + it * 2 ^ polyBits + ip =
        2 ^ (polyBits + tileBits) * salt + (it * 2 ^ polyBits + ip) := by ring
    rw [heq, Nat.mul_add_div (Nat.pos_pow_of_pos _ (by norm_num)),
      Nat.div_eq_of_lt hrest, Nat.add_zero]
  rw [hdiv, Nat.mod_eq_of_lt hsalt]

theorem decodePolyIdPoly_encode (saltBits tileBits polyBits salt it ip : Nat)
    (hsalt : salt < 2 ^ saltBits) (hit : it < 2 ^ tileBits) (hip : ip < 2 ^ polyBits)
    (hw : saltBits + tileBits + polyBits ≤ 32) :
    decodePolyIdPoly polyBits (encodePolyId tileBits polyBits salt it ip) = ip := by
  rw [encodePolyId_eq _ _ _ _ _ hit hip]
  have hlt := encodePolyId_lt saltBits tileBits polyBits salt it ip hsalt hit hip
  have h32 : salt * 2 ^ (polyBits + tileBits) + it * 2 ^ polyBits + ip < 2 ^ 32 :=
    lt_of_lt_of_le hlt (Nat.pow_le_pow_right (by norm_num) hw)
  rw [Nat.mod_eq_of_lt h32]
  unfold decodePolyIdPoly
  rw [Nat.and_pow_two_sub_one_eq_mod]
  have heq : salt * 2 ^ (polyBits + tileBits) + it * 2 ^ polyBits + ip =
      2 ^ polyBits * (salt * 2 ^ tileBits + it) + ip := by
    rw [Nat.pow_add]
    ring
  rw [heq, Nat.mul_add_mod, Nat.mod_eq_of_lt hip]

/-- Adjacency link record (dtLink).  The intrusive chain through the link
pool is represented by the position of the record in a Lean list; the
in-pool next index therefore has no counterpart here. -/
structure Link where
  ref : Nat
  edge : Nat
  side : Nat
  bmin : Nat
  bmax : Nat
deriving DecidableEq

instance : Inhabited Link := ⟨⟨0, 0, 0, 0, 0⟩⟩

/-- Polygon record (dtPoly).  The links field is the polygon firstLink
chain, listed in traversal order. -/
structure Poly where
  vertCount : Nat
  neis : List Nat
  flags : Nat
  area : Nat
  typ : Nat
  links : List Link
deriving DecidableEq

instance : Inhabited Poly := ⟨⟨0, [], 0, 0, 0, []⟩⟩

/-- Mesh tile payload header (dtMeshHeader), restricted to the fields the
claims under study read. -/
structure MeshHeader where
  magic : Int
  version : Int
  x : Int
  y : Int
  layer : Int
  polyCount : Nat
deriving DecidableEq

/-- Mesh tile payload blob: the header plus the static polygon section. -/
structure TileData where
  header : MeshHeader
  polys : List Poly
deriving DecidableEq

/-- Mesh tile slot (dtMeshTile).  A slot is live iff data is some; the
polys field is the runtime polygon array patched into the payload at
addTile time (its link chains are mutable runtime state).  The intrusive
next pointer is represented by membership of the slot index in the
position-lookup buckets or the free list of the store. -/
structure MeshTile where
  salt : Nat
  data : Option TileData
  polys : List Poly
  ownsData : Bool
deriving DecidableEq

instance : Inhabited MeshTile := ⟨⟨0, none, [], false⟩⟩

/-- State of a dtNavMesh: bit widths, the tile slot array, the position
lookup table (buckets of slot indices, most recently inserted first) and
the free list (slot indices, head first). -/
structure NavState where
  saltBits : Nat
  tileBits : Nat
  polyBits : Nat
  maxTiles : Nat
  lutMask : Nat
  tiles : List MeshTile
  lut : List (List Nat)
  freeList : List Nat
deriving DecidableEq

/-- Reduction of a C int to the unsigned 32-bit value it is converted to
inside computeTileHash. -/
def u32ofInt (x : Int) : Nat := (x % 2 ^ 32).toNat

/-- Position hash over tile coordinates (computeTileHash,
DetourNavMesh.cpp lines 101-106). -/
def computeTileHash (x y : Int) (mask : Nat) : Nat :=
  ((0x8da6b343 * u32ofInt x + 0xd8163841 * u32ofInt y) % 2 ^ 32) &&& mask

/-- Slot at a given index (m_tiles[i]). -/
def NavState.tileAtIdx (s : NavState) (i : Nat) : MeshTile := s.tiles.getD i default

/-- Bucket of the position lookup table (m_posLookup[h]). -/
def NavState.bucket (s : NavState) (h : Nat) : List Nat := s.lut.getD h []

/-- Test used by the position lookup walks: the slot is live and its header
carries the requested (x, y) coordinates. -/
def NavState.matchesXY (s : NavState) (x y : Int) (i : Nat) : Bool :=
  match (s.tileAtIdx i).data with
  | none => false
  | some d => d.header.x == x && d.header.y == y

/-- Lookup of all live tiles at a coordinate column (getTilesAt,
DetourNavMesh.cpp lines 1028-1045): walk the bucket for hash (x, y), keep
matching live slots, and store at most the first maxTiles of them. -/
def getTilesAt (s : NavState) (x y : Int) (maxTiles : Nat) : List Nat :=
  ((s.bucket (computeTileHash x y s.lutMask)).filter (s.matchesXY x y)).take maxTiles

/-- Coordinate step for each of the 8 compass sides (getNeighbourTilesAt,
DetourNavMesh.cpp lines 990-1026). -/
def neighbourCoords (x y : Int) (side : Nat) : Int × Int :=
  match side with
  | 0 => (x + 1, y)
  | 1 => (x + 1, y + 1)
  | 2 => (x, y + 1)
  | 3 => (x - 1, y + 1)
  | 4 => (x - 1, y)
  | 5 => (x - 1, y - 1)
  | 6 => (x, y - 1)
  | 7 => (x + 1, y - 1)
  | _ => (x, y)

/-- Lookup of the live tiles in the tile column one step towards a compass
side (getNeighbourTilesAt). -/
def getNeighbourTilesAt (s : NavState) (x y : Int) (side : Nat) (maxTiles : Nat) : List Nat :=
  getTilesAt s (neighbourCoords x y side).1 (neighbourCoords x y side).2 maxTiles

/-- Lookup of the live tile at an (x, y, layer) triple (getTileAt,
DetourNavMesh.cpp lines 974-988), as the slot index of the first match on
the bucket walk. -/
def getTileAt (s : NavState) (x y layer : Int) : Option Nat :=
  (s.bucket (computeTileHash x y s.lutMask)).find? fun i =>
    match (s.tileAtIdx i).data with
    | none => false
    | some d => d.header.x == x && d.header.y == y && d.header.layer == layer

/-- Tile reference of the slot at an index (getTileRef): the slot salt and
index packed with polygon field zero. -/
def getTileRefOfIdx (s : NavState) (i : Nat) : Nat :=
  encodePolyId s.tileBits s.polyBits (s.tileAtIdx i).salt i 0

/-- Polygon reference base of the slot at an index (getPolyRefBase). -/
def getPolyRefBase (s : NavState) (i : Nat) : Nat := getTileRefOfIdx s i

/-- Tile reference of the live tile at an (x, y, layer) triple
(getTileRefAt, DetourNavMesh.cpp lines 1071-1085); zero when there is
none. -/
def getTileRefAt (s : NavState) (x y layer : Int) : Nat :=
  match getTileAt s x y layer with
  | none => 0
  | some i => getTileRefOfIdx s i

/-- Inner loop of unconnectLinks (DetourNavMesh.cpp lines 336-356) on one
polygon chain: every link whose target tile-index field equals targetNum
is unlinked (and returned to the pool, which the list representation
leaves implicit); the others are kept in order. -/
def unconnectChain (tileBits polyBits targetNum : Nat) : List Link → List Link
  | [] => []
  | l :: rest =>
    if decodePolyIdTile tileBits polyBits l.ref = targetNum then
      unconnectChain tileBits polyBits targetNum rest
    else l :: unconnectChain tileBits polyBits targetNum rest

/-- Effect of unconnectLinks on one tile: each polygon chain is filtered of
links targeting targetNum. -/
def unconnectTile (tileBits polyBits targetNum : Nat) (t : MeshTile) : MeshTile :=
  { t with polys := t.polys.map fun p =>
      { p with links := unconnectChain tileBits polyBits targetNum p.links } }

/-- Sequence of unconnectLinks calls over a list of neighbour slot
indices, as performed by removeTile. -/
def unconnectAll (tileBits polyBits targetNum : Nat) (tiles : List MeshTile)
    (idxs : List Nat) : List MeshTile :=
  idxs.foldl
    (fun ts i => ts.set i (unconnectTile tileBits polyBits targetNum (ts.getD i default)))
    tiles

/-- Removal of the first occurrence of a slot index from a lookup bucket,
as performed by the hash-removal loop of removeTile (DetourNavMesh.cpp
lines 1176-1190). -/
def eraseFirst (l : List Nat) (v : Nat) : List Nat :=
  match l with
  | [] => []
  | a :: rest => if a = v then rest else a :: eraseFirst rest v

/-- Removal of a tile (dtNavMesh removeTile, DetourNavMesh.cpp lines
1165-1254).  Returns the status, the successor state, and the payload
handed back to the caller when the owns-data flag is clear.  The neighbour
enumerations are computed up front: unconnectLinks only modifies link
chains, which the lookups do not read, so the interleaved order of the
source is equivalent.  The source dereferences the tile header without a
null check once the salt matches; a live-slot salt can only match a
non-zero ref salt, and on a free slot the model returns the status the
salt check yields for stale references. -/
def removeTile (s : NavState) (ref : Nat) : Nat × NavState × Option TileData :=
  if ref = 0 then (DT_FAILURE ||| DT_INVALID_PARAM, s, none)
  else
    let tileIndex := decodePolyIdTile s.tileBits s.polyBits ref
    let tileSalt := decodePolyIdSalt s.saltBits s.tileBits s.polyBits ref
    if tileIndex ≥ s.maxTiles then (DT_FAILURE ||| DT_INVALID_PARAM, s, none)
    else
      let tile := s.tileAtIdx tileIndex
      if tile.salt ≠ tileSalt then (DT_FAILURE ||| DT_INVALID_PARAM, s, none)
      else
        match tile.data with
        | none => (DT_FAILURE ||| DT_INVALID_PARAM, s, none)
        | some d =>
          let h := computeTileHash d.header.x d.header.y s.lutMask
          let s1 : NavState := { s with lut := s.lut.set h (eraseFirst (s.bucket h) tileIndex) }
          let targetNum := decodePolyIdTile s.tileBits s.polyBits (getTileRefOfIdx s1 tileIndex)
          let neiIdxs :=
            (getTilesAt s1 d.header.x d.header.y 32).filter (fun j => j ≠ tileIndex) ++
              (List.range 8).flatMap
                (fun side => getNeighbourTilesAt s1 d.header.x d.header.y side 32)
          let tiles2 := unconnectAll s.tileBits s.polyBits targetNum s1.tiles neiIdxs
          let cleared : MeshTile :=
            { salt := bumpSalt s.saltBits tile.salt, data := none, polys := [],
              ownsData := false }
          let s2 : NavState :=
            { s1 with tiles := tiles2.set tileIndex cleared,
                      freeList := tileIndex :: s1.freeList }
          (DT_SUCCESS, s2, if tile.ownsData then none else some d)

/-- Well-formedness of a navmesh store: array sizes agree with the
parameters, field widths fit a 32-bit reference, every live slot sits in
the lookup bucket of its coordinates, slot salts fit the salt field, and
no tile column holds more than the 32 tiles the neighbour enumerations of
addTile and removeTile can report. -/
def NavWf (s : NavState) : Prop :=
  s.tiles.length = s.maxTiles ∧
  s.lut.length = s.lutMask + 1 ∧
  s.maxTiles ≤ 2 ^ s.tileBits ∧
  s.saltBits + s.tileBits + s.polyBits ≤ 32 ∧
  (∀ i ∈ List.range s.maxTiles, (s.tileAtIdx i).salt < 2 ^ s.saltBits) ∧
  (∀ i ∈ List.range s.maxTiles, ∀ d ∈ (s.tileAtIdx i).data.toList,
    i ∈ s.bucket (computeTileHash d.header.x d.header.y s.lutMask)) ∧
  (∀ i ∈ List.range s.maxTiles, ∀ d ∈ (s.tileAtIdx i).data.toList,
    ((s.bucket (computeTileHash d.header.x d.header.y s.lutMask)).filter
      (s.matchesXY d.header.x d.header.y)).length ≤ 32)

instance (s : NavState) : Decidable (NavWf s) := by
  unfold NavWf
  infer_instance

/-- Locality of link targets: every link reachable from a polygon chain of
a live tile targets a tile-index field whose slot is live and whose
coordinates are at Chebyshev distance at most one from the source tile.
This is how connectIntLinks, connectExtLinks, baseOffMeshLinks and
connectExtOffMeshLinks create links: within a tile, or towards tiles
returned by getTilesAt and getNeighbourTilesAt. -/
def LinksLocal (s : NavState) : Prop :=
  ∀ i ∈ List.range s.maxTiles, ∀ di ∈ (s.tileAtIdx i).data.toList,
    ∀ p ∈ (s.tileAtIdx i).polys, ∀ l ∈ p.links,
      ∃ dt ∈ (s.tileAtIdx (decodePolyIdTile s.tileBits s.polyBits l.ref)).data.toList,
        (di.header.x - dt.header.x).natAbs ≤ 1 ∧ (di.header.y - dt.header.y).natAbs ≤ 1

instance (s : NavState) : Decidable (LinksLocal s) := by
  unfold LinksLocal
  infer_instance

theorem unconnectChain_targets {tileBits polyBits t : Nat} {ch : List Link} :
    ∀ l ∈ unconnectChain tileBits polyBits t ch,
      decodePolyIdTile tileBits polyBits l.ref ≠ t := by
  induction ch with
  | nil => intro l hl; cases hl
  | cons a rest ih =>
    intro l hl
    unfold unconnectChain at hl
    by_cases ha : decodePolyIdTile tileBits polyBits a.ref = t
    · rw [if_pos ha] at hl
      exact ih l hl
    · rw [if_neg ha] at hl
      rcases List.mem_cons.mp hl with h | h
      · subst h; exact ha
      · exact ih l h

theorem unconnectChain_cons (tileBits polyBits t : Nat) (a : Link) (rest : List Link) :
    unconnectChain tileBits polyBits t (a :: rest) =
      if decodePolyIdTile tileBits polyBits a.ref = t then
        unconnectChain tileBits polyBits t rest
      else a :: unconnectChain tileBits polyBits t rest := rfl

theorem unconnectChain_idem (tileBits polyBits t : Nat) (ch : List Link) :
    unconnectChain tileBits polyBits t (unconnectChain tileBits polyBits t ch) =
      unconnectChain tileBits polyBits t ch := by
  induction ch with
  | nil => rfl
  | cons a rest ih =>
    rw [unconnectChain_cons]
    by_cases ha : decodePolyIdTile tileBits polyBits a.ref = t
    · rw [if_pos ha]
      exact ih
    · rw [if_neg ha, unconnectChain_cons, if_neg ha, ih]

theorem unconnectTile_idem (tileBits polyBits t : Nat) (x : MeshTile) :
    unconnectTile tileBits polyBits t (unconnectTile tileBits polyBits t x) =
      unconnectTile tileBits polyBits t x := by
  unfold unconnectTile
  simp [List.map_map, Function.comp, unconnectChain_idem]

theorem unconnectAll_length (tileBits polyBits t : Nat) (tiles : List MeshTile)
    (idxs : List Nat) :
    (unconnectAll tileBits polyBits t tiles idxs).length = tiles.length := by
  induction idxs generalizing tiles with
  | nil => rfl
  | cons i rest ih =>
    unfold unconnectAll
    rw [List.foldl_cons]
    have := ih (tiles.set i (unconnectTile tileBits polyBits t (tiles.getD i default)))
    unfold unconnectAll at this
    rw [this, List.length_set]

theorem unconnectAll_getD (tileBits polyBits t : Nat) (tiles : List MeshTile)
    (idxs : List Nat) (j : Nat) :
    (unconnectAll tileBits polyBits t tiles idxs).getD j default =
      if j ∈ idxs ∧ j < tiles.length then
        unconnectTile tileBits polyBits t (tiles.getD j default)
      else tiles.getD j default := by
  induction idxs generalizing tiles with
  | nil => simp [unconnectAll]
  | cons i rest ih =>
    unfold unconnectAll
    rw [List.foldl_cons]
    have step := ih (tiles.set i (unconnectTile tileBits polyBits t (tiles.getD i default)))
    unfold unconnectAll at step
    rw [step, List.length_set]
    by_cases hj : j < tiles.length
    · by_cases hij : i = j
      · subst hij
        have hset : (tiles.set i (unconnectTile tileBits polyBits t
            (tiles.getD i default))).getD i default =
            unconnectTile tileBits polyBits t (tiles.getD i default) := by
          simp [List.getD_eq_getElem?_getD, List.getElem?_set, hj]
        by_cases hmem : i ∈ rest
        · rw [if_pos ⟨hmem, hj⟩, if_pos ⟨List.mem_cons_self i rest, hj⟩, hset,
            unconnectTile_idem]
        · rw [if_neg (fun hc => hmem hc.1), if_pos ⟨List.mem_cons_self i rest, hj⟩, hset]
      · have hset : (tiles.set i (unconnectTile tileBits polyBits t
            (tiles.getD i default))).getD j default = tiles.getD j default := by
          simp [List.getD_eq_getElem?_getD, List.getElem?_set, hij]
        rw [hset]
        by_cases hmem : j ∈ rest
        · rw [if_pos ⟨hmem, hj⟩, if_pos ⟨List.mem_cons_of_mem i hmem, hj⟩]
        · have hnot : ¬ j ∈ i :: rest := by
            intro hc
            rcases List.mem_cons.mp hc with h | h
            · exact hij h.symm
            · exact hmem h
          rw [if_neg (fun hc => hmem hc.1), if_neg (fun hc => hnot hc.1)]
    · have hset : (tiles.set i (unconnectTile tileBits polyBits t
          (tiles.getD i default))).getD j default = tiles.getD j default := by
        by_cases hij : i = j
        · subst hij
          simp [List.getD_eq_getElem?_getD, List.getElem?_set, hj,
            List.getElem?_eq_none (Nat.le_of_not_lt hj)]
        · simp [List.getD_eq_getElem?_getD, List.getElem?_set, hij]
      rw [if_neg (fun hc => hj hc.2), if_neg (fun hc => hj hc.2), hset]

theorem eraseFirst_sublist (l : List Nat) (v : Nat) : (eraseFirst l v).Sublist l := by
  induction l with
  | nil => exact List.Sublist.refl []
  | cons a rest ih =>
    unfold eraseFirst
    by_cases ha : a = v
    · rw [if_pos ha]
      exact List.sublist_cons_self a rest
    · rw [if_neg ha]
      exact List.Sublist.cons₂ a ih

theorem mem_eraseFirst_of_ne {l : List Nat} {a v : Nat} (hne : a ≠ v) (hmem : a ∈ l) :
    a ∈ eraseFirst l v := by
  induction l with
  | nil => cases hmem
  | cons b rest ih =>
    unfold eraseFirst
    rcases List.mem_cons.mp hmem with h | h
    · subst h
      rw [if_neg hne]
      exact List.mem_cons_self _ _
    · by_cases hb : b = v
      · rw [if_pos hb]
        exact h
      · rw [if_neg hb]
        exact List.mem_cons_of_mem b (ih h)

theorem mem_getTilesAt (s : NavState) (x y : Int) (A : Nat)
    (hmem : A ∈ s.bucket (computeTileHash x y s.lutMask))
    (hmatch : s.matchesXY x y A = true)
    (hbound : ((s.bucket (computeTileHash x y s.lutMask)).filter
      (s.matchesXY x y)).length ≤ 32) :
    A ∈ getTilesAt s x y 32 := by
  unfold getTilesAt
  rw [List.take_of_length_le hbound]
  exact List.mem_filter.mpr ⟨hmem, hmatch⟩

theorem neighbourCoords_covers (tx ty ax ay : Int)
    (hx : (ax - tx).natAbs ≤ 1) (hy : (ay - ty).natAbs ≤ 1)
    (hne : ¬(ax = tx ∧ ay = ty)) :
    ∃ side ∈ List.range 8, neighbourCoords tx ty side = (ax, ay) := by
  have hx1 : ax = tx - 1 ∨ ax = tx ∨ ax = tx + 1 := by omega
  have hy1 : ay = ty - 1 ∨ ay = ty ∨ ay = ty + 1 := by omega
  rcases hx1 with hx | hx | hx <;> rcases hy1 with hy | hy | hy <;> subst hx <;> subst hy
  · exact ⟨5, by simp, by simp [neighbourCoords]⟩
  · exact ⟨4, by simp, by simp [neighbourCoords]⟩
  · exact ⟨3, by simp, by simp [neighbourCoords]⟩
  · exact ⟨6, by simp, by simp [neighbourCoords]⟩
  · exact absurd ⟨rfl, rfl⟩ hne
  · exact ⟨2, by simp, by simp [neighbourCoords]⟩
  · exact ⟨7, by simp, by simp [neighbourCoords]⟩
  · exact ⟨0, by simp, by simp [neighbourCoords]⟩
  · exact ⟨1, by simp, by simp [neighbourCoords]⟩

theorem bucket_set_lut (s : NavState) (h : Nat) (L : List Nat) (hlen : h < s.lut.length)
    (b : Nat) :
    ({ s with lut := s.lut.set h L } : NavState).bucket b = if h = b then L else s.bucket b := by
  unfold NavState.bucket
  by_cases hb : h = b
  · subst hb
    simp [List.getD_eq_getElem?_getD, List.getElem?_set, hlen]
  · simp [List.getD_eq_getElem?_getD, List.getElem?_set, hb]

theorem computeTileHash_le_mask (x y : Int) (mask : Nat) :
    computeTileHash x y mask ≤ mask := Nat.and_le_right

/-- Claim C1 (amended): for every well-formed NavMesh — in particular one
in which no coordinate column holds more than the 32 live tiles that the
MAX_NEIS-capped neighbour enumerations of removeTile can report — whose
links all target live tiles at Chebyshev distance at most one (the
locality every stitching routine establishes), after a successful
removeTile no link reachable from any polygon chain of any remaining live
tile carries a target PolyRef whose tile-index field equals the removed
slot index.  The per-column bound is a genuine precondition, not an
invariant of the code: addTile accepts any number of layers per column,
and with 33 linked layers in one neighbour column the capped enumeration
skips one tile and its stale link survives (see the counterexample
below). -/
theorem removeTile_no_stale_links (s : NavState) (ref st : Nat) (s2 : NavState)
    (od : Option TileData) (hwf : NavWf s) (hloc : LinksLocal s)
    (heq : removeTile s ref = (st, s2, od)) (hst : st = DT_SUCCESS) :
    ∀ i, (s2.tileAtIdx i).data.isSome = true →
      ∀ p ∈ (s2.tileAtIdx i).polys, ∀ l ∈ p.links,
        decodePolyIdTile s.tileBits s.polyBits l.ref ≠
          decodePolyIdTile s.tileBits s.polyBits ref := by
  obtain ⟨hlen, hlutlen, hmaxle, hwidth, hsaltw, hbmem, hbnd⟩ := hwf
  subst hst
  simp only [removeTile] at heq
  split at heq
  · simp only [Prod.mk.injEq] at heq
    exact absurd heq.1 (by decide)
  rename_i h0
  split at heq
  · simp only [Prod.mk.injEq] at heq
    exact absurd heq.1 (by decide)
  rename_i hge
  split at heq
  · simp only [Prod.mk.injEq] at heq
    exact absurd heq.1 (by decide)
  rename_i hsaltok
  split at heq
  · simp only [Prod.mk.injEq] at heq
    exact absurd heq.1 (by decide)
  rename_i d hdata
  injection heq with h1 h23
  injection h23 with h2 h3
  set tI := decodePolyIdTile s.tileBits s.polyBits ref with htIdef
  set hsh := computeTileHash d.header.x d.header.y s.lutMask with hshdef
  set s1 : NavState :=
    { s with lut := s.lut.set hsh (eraseFirst (s.bucket hsh) tI) } with hs1def
  set targetNum := decodePolyIdTile s.tileBits s.polyBits (getTileRefOfIdx s1 tI)
    with htgdef
  set neiIdxs :=
    (getTilesAt s1 d.header.x d.header.y 32).filter (fun j => j ≠ tI) ++
      (List.range 8).flatMap
        (fun side => getNeighbourTilesAt s1 d.header.x d.header.y side 32) with hneidef
  set tiles2 := unconnectAll s.tileBits s.polyBits targetNum s1.tiles neiIdxs
    with htiles2def
  set cleared : MeshTile :=
    { salt := bumpSalt s.saltBits (s.tileAtIdx tI).salt, data := none, polys := [],
      ownsData := false } with hcldef
  have htIlt : tI < s.maxTiles := Nat.lt_of_not_ge hge
  have htilesEq : s2.tiles = tiles2.set tI cleared := by rw [← h2]
  have htiles2len : tiles2.length = s.maxTiles := by
    rw [htiles2def, unconnectAll_length]
    exact hlen
  have hs1tiles : s1.tiles = s.tiles := rfl
  have hsaltlt : (s.tileAtIdx tI).salt < 2 ^ s.saltBits :=
    hsaltw tI (List.mem_range.mpr htIlt)
  have htIlt2 : tI < 2 ^ s.tileBits := lt_of_lt_of_le htIlt hmaxle
  have htarget : targetNum = tI := by
    rw [htgdef]
    unfold getTileRefOfIdx
    have hsame : s1.tileAtIdx tI = s.tileAtIdx tI := rfl
    rw [hsame]
    exact decodePolyIdTile_encode s.saltBits _ _ _ _ _ hsaltlt htIlt2
      (Nat.pos_pow_of_pos _ (by norm_num)) hwidth
  intro i hlive p hp l hl hcontr
  simp only [NavState.tileAtIdx] at hlive hp
  rw [htilesEq] at hlive hp
  by_cases hiT : i = tI
  · subst hiT
    have hcl : (tiles2.set tI cleared).getD tI default = cleared := by
      have hlt : tI < tiles2.length := htiles2len ▸ htIlt
      simp [List.getD_eq_getElem?_getD, List.getElem?_set, hlt]
    rw [hcl, hcldef] at hlive
    simp at hlive
  · have hslot : (tiles2.set tI cleared).getD i default = tiles2.getD i default := by
      simp [List.getD_eq_getElem?_getD, List.getElem?_set,
        (show ¬ tI = i from fun hc => hiT hc.symm)]
    rw [hslot] at hlive hp
    rw [htiles2def, unconnectAll_getD] at hlive hp
    by_cases hin : i ∈ neiIdxs ∧ i < s1.tiles.length
    · rw [if_pos hin] at hp
      unfold unconnectTile at hp
      rcases List.mem_map.mp hp with ⟨p0, _, hp0eq⟩
      rw [← hp0eq] at hl
      exact unconnectChain_targets l hl (htarget ▸ hcontr)
    · rw [if_neg hin] at hlive hp
      rw [hs1tiles] at hlive hp
      have hilt : i < s.maxTiles := by
        by_contra hge2
        have hdef : s.tiles.getD i default = default :=
          List.getD_eq_default _ _ (by omega)
        rw [hdef] at hlive
        rw [show (default : MeshTile) = ⟨0, none, [], false⟩ from rfl] at hlive
        simp at hlive
      obtain ⟨di, hdi⟩ := Option.isSome_iff_exists.mp hlive
      have hdi2 : (s.tileAtIdx i).data = some di := hdi
      have hp2 : p ∈ (s.tileAtIdx i).polys := hp
      obtain ⟨dt, hdtmem, hdx, hdy⟩ :=
        hloc i (List.mem_range.mpr hilt) di (by simp [Option.toList, hdi2]) p hp2 l hl
      rw [hcontr, hdata] at hdtmem
      simp [Option.toList] at hdtmem
      rw [hdtmem] at hdx hdy
      have hlutlt : hsh < s.lut.length := by
        rw [hlutlen]
        exact Nat.lt_succ_of_le (computeTileHash_le_mask _ _ _)
      have hmatchi : ∀ x y : Int, di.header.x = x → di.header.y = y →
          s1.matchesXY x y i = true := by
        intro x y hx hy
        show s.matchesXY x y i = true
        unfold NavState.matchesXY
        rw [hdi2, ← hx, ← hy]
        simp
      have hbucketmem : ∀ b : Nat, i ∈ s.bucket b → i ∈ s1.bucket b := by
        intro b hb
        rw [hs1def, bucket_set_lut s hsh _ hlutlt]
        by_cases hbh : hsh = b
        · rw [if_pos hbh]
          subst hbh
          exact mem_eraseFirst_of_ne hiT hb
        · rw [if_neg hbh]
          exact hb
      have hbucketsub : ∀ b : Nat, (s1.bucket b).Sublist (s.bucket b) := by
        intro b
        rw [hs1def, bucket_set_lut s hsh _ hlutlt]
        by_cases hbh : hsh = b
        · rw [if_pos hbh]
          subst hbh
          exact eraseFirst_sublist _ _
        · rw [if_neg hbh]
      have hboundi : ∀ x y : Int, di.header.x = x → di.header.y = y →
          ((s1.bucket (computeTileHash x y s1.lutMask)).filter
            (s1.matchesXY x y)).length ≤ 32 := by
        intro x y hx hy
        have hmm : s1.matchesXY = s.matchesXY := rfl
        have hlm : s1.lutMask = s.lutMask := rfl
        rw [hmm, hlm]
        calc ((s1.bucket (computeTileHash x y s.lutMask)).filter
              (s.matchesXY x y)).length
            ≤ ((s.bucket (computeTileHash x y s.lutMask)).filter
              (s.matchesXY x y)).length :=
              ((hbucketsub _).filter _).length_le
          _ ≤ 32 := by
              have hb := hbnd i (List.mem_range.mpr hilt) di (by simp [Option.toList, hdi2])
              rw [hx, hy] at hb
              exact hb
      have hmemcol : ∀ x y : Int, di.header.x = x → di.header.y = y →
          i ∈ getTilesAt s1 x y 32 := by
        intro x y hx hy
        apply mem_getTilesAt
        · apply hbucketmem
          have hb := hbmem i (List.mem_range.mpr hilt) di (by simp [Option.toList, hdi2])
          rw [hx, hy] at hb
          exact hb
        · exact hmatchi x y hx hy
        · exact hboundi x y hx hy
      have hmemnei : i ∈ neiIdxs := by
        rw [hneidef]
        by_cases hcc : di.header.x = d.header.x ∧ di.header.y = d.header.y
        · apply List.mem_append_left
          apply List.mem_filter.mpr
          refine ⟨hmemcol _ _ hcc.1 hcc.2, ?_⟩
          simp only [decide_eq_true_eq]
          exact hiT
        · obtain ⟨side, hsr, hsc⟩ :=
            neighbourCoords_covers d.header.x d.header.y di.header.x di.header.y hdx hdy hcc
          apply List.mem_append_right
          apply List.mem_flatMap.mpr
          refine ⟨side, hsr, ?_⟩
          unfold getNeighbourTilesAt
          rw [hsc]
          exact hmemcol _ _ rfl rfl
      exact hin ⟨hmemnei, by rw [hs1tiles, hlen]; exact hilt⟩

/-- Payload of a one-polygon tile at column (x, y), layer 0, used by the
concrete witnesses below. -/
def onePolyData (x y : Int) : TileData :=
  { header := { magic := DT_NAVMESH_MAGIC
                version := DT_NAVMESH_VERSION
                x := x
                y := y
                layer := 0
                polyCount := 1 }
    polys := [{ vertCount := 4, neis := [], flags := 1, area := 0, typ := 0, links := [] }] }

/-- Concrete two-tile navmesh: slot 0 at (0, 0) and slot 1 at (1, 0), each
holding one polygon linked to the other tile (refs 4 and 6 encode
(salt 1, tile 0, poly 0) and (salt 1, tile 1, poly 0) under
tileBits = polyBits = 1). -/
def twoTileNav : NavState :=
  { saltBits := 10, tileBits := 1, polyBits := 1, maxTiles := 2, lutMask := 0,
    tiles := [
      { salt := 1
        data := some (onePolyData 0 0)
        polys := [{ vertCount := 4
                    neis := []
                    flags := 1
                    area := 0
                    typ := 0
                    links := [{ ref := 6, edge := 0, side := 0, bmin := 0, bmax := 255 }] }]
        ownsData := false },
      { salt := 1
        data := some (onePolyData 1 0)
        polys := [{ vertCount := 4
                    neis := []
                    flags := 1
                    area := 0
                    typ := 0
                    links := [{ ref := 4, edge := 2, side := 4, bmin := 0, bmax := 255 }] }]
        ownsData := false }],
    lut := [[1, 0]],
    freeList := [] }

/-- Witness for claim C1: on the concrete two-tile mesh, removing tile 0
by its reference succeeds and the theorem applies, so no surviving link
targets slot 0. -/
theorem removeTile_no_stale_links_witness :
    (removeTile twoTileNav 4).1 = DT_SUCCESS ∧
      (∀ i, ((removeTile twoTileNav 4).2.1.tileAtIdx i).data.isSome = true →
        ∀ p ∈ ((removeTile twoTileNav 4).2.1.tileAtIdx i).polys, ∀ l ∈ p.links,
          decodePolyIdTile twoTileNav.tileBits twoTileNav.polyBits l.ref ≠
            decodePolyIdTile twoTileNav.tileBits twoTileNav.polyBits 4) :=
  ⟨by decide,
    removeTile_no_stale_links twoTileNav 4 (removeTile twoTileNav 4).1
      (removeTile twoTileNav 4).2.1 (removeTile twoTileNav 4).2.2
      (by decide) (by decide) rfl (by decide)⟩

/-- Payload of a one-polygon tile at column (x, y) and a chosen layer,
used by the truncation counterexample below. -/
def onePolyDataL (x y layer : Int) : TileData :=
  { header := { magic := DT_NAVMESH_MAGIC
                version := DT_NAVMESH_VERSION
                x := x
                y := y
                layer := layer
                polyCount := 1 }
    polys := [{ vertCount := 4, neis := [], flags := 1, area := 0, typ := 0, links := [] }] }

/-- Neighbour tile at column (1, 0), layer k, holding one polygon whose
link chain targets reference 128 = (salt 1, tile 0, poly 0) under
saltBits = 10, tileBits = 6, polyBits = 1. -/
def nbrTile (k : Nat) : MeshTile :=
  { salt := 1
    data := some (onePolyDataL 1 0 (k : Int))
    polys := [{ vertCount := 4
                neis := []
                flags := 1
                area := 0
                typ := 0
                links := [{ ref := 128, edge := 0, side := 4, bmin := 0, bmax := 255 }] }]
    ownsData := false }

/-- Navmesh with 34 slots: slot 0 at (0, 0), and 33 stacked layers at
(1, 0) in slots 1-33, every one of them holding a link to slot 0's
polygon; all slots share the single lookup bucket in slot order. -/
def manyNbrNav : NavState :=
  { saltBits := 10, tileBits := 6, polyBits := 1, maxTiles := 34, lutMask := 0,
    tiles := { salt := 1
               data := some (onePolyDataL 0 0 0)
               polys := [{ vertCount := 4
                           neis := []
                           flags := 1
                           area := 0
                           typ := 0
                           links := [] }]
               ownsData := false } :: (List.range 33).map nbrTile,
    lut := [List.range 34],
    freeList := [] }

/-- Claim C1 counterexample: removeTile enumerates each neighbour column
through getTilesAt / getNeighbourTilesAt with the MAX_NEIS cap of 32,
but addTile enforces no bound on the number of live layers per column.
On the 34-slot mesh, removing tile 0 by its reference succeeds, the
capped enumeration of column (1, 0) reports only the first 32 of its 33
layers, and the skipped 33rd neighbour (slot 33) keeps a link whose
target tile-index field equals the removed slot index: the unqualified
claim is false on the code as written. -/
theorem removeTile_stale_link_survives :
    (removeTile manyNbrNav 128).1 = DT_SUCCESS ∧
    ((removeTile manyNbrNav 128).2.1.tileAtIdx 33).data.isSome = true ∧
    ∃ p ∈ ((removeTile manyNbrNav 128).2.1.tileAtIdx 33).polys, ∃ l ∈ p.links,
      decodePolyIdTile manyNbrNav.tileBits manyNbrNav.polyBits l.ref =
        decodePolyIdTile manyNbrNav.tileBits manyNbrNav.polyBits 128 := by decide

/-- Modelled from the spec: the polygon-count guard of addTile compares
the poly field width with dtIlog2 (dtNextPow2 polyCount), the ceiling
base-two logarithm of the count; dtIlog2 and dtNextPow2 live in the
public header DetourCommon.h.  Nat.clog 2 computes the same value. -/
def dtCeilLog2 (n : Nat) : Nat := Nat.clog 2 n

/-- Inner loop of connectIntLinks (DetourNavMesh.cpp lines 500-516):
edges are visited from the last index down to zero and each internal
neighbour edge prepends one link to the chain accumulator, so the final
chain is ordered by ascending edge index. -/
def intLinksLoop (base : Nat) (p : Poly) : Nat → List Link → List Link
  | 0, acc => acc
  | j + 1, acc =>
    intLinksLoop base p j
      (if p.neis.getD j 0 ≠ 0 ∧ p.neis.getD j 0 &&& DT_EXT_LINK = 0 then
        { ref := base ||| (p.neis.getD j 0 - 1), edge := j, side := 0xff,
          bmin := 0, bmax := 0 } :: acc
      else acc)

/-- Per-polygon effect of connectIntLinks: the chain is reset, off-mesh
polygons keep an empty chain, and ordinary polygons get one link per
internal edge. -/
def connectIntLinksPoly (base : Nat) (p : Poly) : Poly :=
  if p.typ = DT_POLYTYPE_OFFMESH_CONNECTION then { p with links := [] }
  else { p with links := intLinksLoop base p p.vertCount [] }

/-- connectIntLinks over a whole tile (DetourNavMesh.cpp lines 485-518). -/
def connectIntLinks (base : Nat) (polys : List Poly) : List Poly :=
  polys.map (connectIntLinksPoly base)

/-- Removal of the first occurrence of a value from the free list, mirroring
the prev/next walk of addTile (DetourNavMesh.cpp lines 869-884); none when
the value is not on the list. -/
def removeFromList (l : List Nat) (v : Nat) : Option (List Nat) :=
  match l with
  | [] => none
  | a :: rest => if a = v then some rest else (removeFromList rest v).map (fun r => a :: r)

/-- Slot allocation of addTile (DetourNavMesh.cpp lines 855-891): with
lastRef zero, pop the free-list head keeping its salt; with a non-zero
lastRef, find that specific slot index on the free list (failing
otherwise) and restore its salt from the reference.  Returns the slot
index, the remaining free list and the salt to store. -/
def allocSlot (s : NavState) (lastRef : Nat) : Option (Nat × List Nat × Nat) :=
  if lastRef = 0 then
    match s.freeList with
    | [] => none
    | i :: rest => some (i, rest, (s.tileAtIdx i).salt)
  else
    let tileIndex := decodePolyIdTile s.tileBits s.polyBits lastRef
    if tileIndex ≥ s.maxTiles then none
    else
      match removeFromList s.freeList tileIndex with
      | none => none
      | some rest =>
        some (tileIndex, rest, decodePolyIdSalt s.saltBits s.tileBits s.polyBits lastRef)

/-- Addition of a tile (dtNavMesh addTile, DetourNavMesh.cpp lines
835-972): payload validation, polygon-count budget check, occupancy
check, slot allocation, hash insertion, runtime polygon setup and
internal stitching.  The cross-tile and off-mesh stitching calls after
connectIntLinks modify only the link chains of this and neighbouring
tiles through the same link-allocation machinery; no claim below reads
the chains addTile produces, so those floating-point routines are not
replayed here.  Returns the status, the reference reported through the
result out-parameter, and the successor state. -/
def addTile (s : NavState) (td : TileData) (fl : Bool) (lastRef : Nat) :
    Nat × Option Nat × NavState :=
  if td.header.magic ≠ DT_NAVMESH_MAGIC then (DT_FAILURE ||| DT_WRONG_MAGIC, none, s)
  else if td.header.version ≠ DT_NAVMESH_VERSION then (DT_FAILURE ||| DT_WRONG_VERSION, none, s)
  else if s.polyBits < dtCeilLog2 td.header.polyCount then
    (DT_FAILURE ||| DT_INVALID_PARAM, none, s)
  else if (getTileAt s td.header.x td.header.y td.header.layer).isSome then
    (DT_FAILURE ||| DT_ALREADY_OCCUPIED, none, s)
  else
    match allocSlot s lastRef with
    | none => (DT_FAILURE ||| DT_OUT_OF_MEMORY, none, s)
    | some (idx, freeRest, salt2) =>
      let h := computeTileHash td.header.x td.header.y s.lutMask
      let base := encodePolyId s.tileBits s.polyBits salt2 idx 0
      let newTile : MeshTile :=
        { salt := salt2, data := some td, polys := connectIntLinks base td.polys,
          ownsData := fl }
      let s2 : NavState :=
        { s with tiles := s.tiles.set idx newTile,
                 lut := s.lut.set h (idx :: s.bucket h),
                 freeList := freeRest }
      (DT_SUCCESS, some (getTileRefOfIdx s2 idx), s2)

theorem removeFromList_eq_none {l : List Nat} {v : Nat} (h : v ∉ l) :
    removeFromList l v = none := by
  induction l with
  | nil => rfl
  | cons a rest ih =>
    unfold removeFromList
    have ha : ¬ a = v := fun hc => h (hc ▸ List.mem_cons_self a rest)
    rw [if_neg ha, ih (fun hc => h (List.mem_cons_of_mem a hc))]
    rfl

theorem removeFromList_cons_self (v : Nat) (rest : List Nat) :
    removeFromList (v :: rest) v = some rest := by
  unfold removeFromList
  rw [if_pos rfl]

theorem unconnectAll_getD_data (tileBits polyBits t : Nat) (tiles : List MeshTile)
    (idxs : List Nat) (k : Nat) :
    ((unconnectAll tileBits polyBits t tiles idxs).getD k default).data =
      (tiles.getD k default).data := by
  rw [unconnectAll_getD]
  split <;> rfl

theorem unconnectAll_getD_salt (tileBits polyBits t : Nat) (tiles : List MeshTile)
    (idxs : List Nat) (k : Nat) :
    ((unconnectAll tileBits polyBits t tiles idxs).getD k default).salt =
      (tiles.getD k default).salt := by
  rw [unconnectAll_getD]
  split <;> rfl

/-- Claim C8: with a structurally valid payload, addTile fails with
INVALID_PARAM and leaves the mesh untouched whenever the header polygon
count exceeds the 2 ^ polyBits budget fixed at init, and the budget check
passes whenever the count is at most 2 ^ polyBits. -/
theorem addTile_polyCount_budget (s : NavState) (td : TileData) (fl : Bool)
    (lastRef : Nat) (hm : td.header.magic = DT_NAVMESH_MAGIC)
    (hv : td.header.version = DT_NAVMESH_VERSION) :
    (2 ^ s.polyBits < td.header.polyCount →
      addTile s td fl lastRef = (DT_FAILURE ||| DT_INVALID_PARAM, none, s)) ∧
    (td.header.polyCount ≤ 2 ^ s.polyBits →
      ¬ s.polyBits < dtCeilLog2 td.header.polyCount) := by
  constructor
  · intro hgt
    have hcond : s.polyBits < dtCeilLog2 td.header.polyCount := by
      unfold dtCeilLog2
      by_contra hc
      exact absurd ((Nat.le_pow_iff_clog_le (by norm_num)).mpr (Nat.not_lt.mp hc))
        (Nat.not_le.mpr hgt)
    unfold addTile
    rw [if_neg (by simp [hm]), if_neg (by simp [hv]), if_pos hcond]
  · intro hle
    unfold dtCeilLog2
    exact Nat.not_lt.mpr ((Nat.le_pow_iff_clog_le (by norm_num)).mp hle)

/-- Payload with three polygons used to witness the budget rejection when
polyBits is 1. -/
def threePolyData : TileData :=
  { header := { magic := DT_NAVMESH_MAGIC
                version := DT_NAVMESH_VERSION
                x := 5
                y := 5
                layer := 0
                polyCount := 3 }
    polys := [] }

/-- Witness for claim C8: the two-tile mesh has polyBits 1, so a payload
declaring 3 polygons is rejected with INVALID_PARAM and the state is
returned unchanged. -/
theorem addTile_polyCount_budget_witness :
    2 ^ twoTileNav.polyBits < threePolyData.header.polyCount ∧
      addTile twoTileNav threePolyData false 0 =
        (DT_FAILURE ||| DT_INVALID_PARAM, none, twoTileNav) :=
  ⟨by decide,
    (addTile_polyCount_budget twoTileNav threePolyData false 0 (by decide) (by decide)).1
      (by decide)⟩

theorem getD_set_list (lut : List (List Nat)) (h : Nat) (L : List Nat)
    (hlen : h < lut.length) (b : Nat) :
    (lut.set h L).getD b [] = if h = b then L else lut.getD b [] := by
  by_cases hb : h = b
  · subst hb
    simp [List.getD_eq_getElem?_getD, List.getElem?_set, hlen]
  · simp [List.getD_eq_getElem?_getD, List.getElem?_set, hb]

/-- Claim C3: a tile removed with the owns-data flag clear (so its payload
is returned) can be re-added through addTile with its prior TileRef: the
call succeeds, reports the same reference, stores the payload in the slot
named by the tile field of the reference and restores that slot's salt
from the reference; and for any store, addTile with a non-zero lastRef
whose slot index is absent from the free list fails with OUT_OF_MEMORY
and changes nothing. -/
theorem addTile_restore_roundtrip (s s2 : NavState) (d : TileData) (fl : Bool) (ref : Nat)
    (hwf : NavWf s)
    (heq : removeTile s ref = (DT_SUCCESS, s2, some d))
    (href : ref = getTileRefOfIdx s (decodePolyIdTile s.tileBits s.polyBits ref))
    (hm : d.header.magic = DT_NAVMESH_MAGIC)
    (hv : d.header.version = DT_NAVMESH_VERSION)
    (hpb : ¬ s.polyBits < dtCeilLog2 d.header.polyCount)
    (huniq : ∀ k ∈ List.range s.maxTiles, ∀ dk ∈ (s.tileAtIdx k).data.toList,
      dk.header.x = d.header.x → dk.header.y = d.header.y →
        dk.header.layer = d.header.layer →
          k = decodePolyIdTile s.tileBits s.polyBits ref) :
    (∃ s3 : NavState,
      addTile s2 d fl ref = (DT_SUCCESS, some ref, s3) ∧
      (s3.tileAtIdx (decodePolyIdTile s.tileBits s.polyBits ref)).salt =
        decodePolyIdSalt s.saltBits s.tileBits s.polyBits ref ∧
      (s3.tileAtIdx (decodePolyIdTile s.tileBits s.polyBits ref)).data = some d) ∧
    (∀ (sx : NavState) (dx : TileData) (flx : Bool) (lr : Nat),
      dx.header.magic = DT_NAVMESH_MAGIC →
      dx.header.version = DT_NAVMESH_VERSION →
      ¬ sx.polyBits < dtCeilLog2 dx.header.polyCount →
      getTileAt sx dx.header.x dx.header.y dx.header.layer = none →
      lr ≠ 0 →
      decodePolyIdTile sx.tileBits sx.polyBits lr < sx.maxTiles →
      decodePolyIdTile sx.tileBits sx.polyBits lr ∉ sx.freeList →
      addTile sx dx flx lr = (DT_FAILURE ||| DT_OUT_OF_MEMORY, none, sx)) := by
  obtain ⟨hlen, hlutlen, hmaxle, hwidth, hsaltw, hbmem, hbnd⟩ := hwf
  constructor
  · simp only [removeTile] at heq
    split at heq
    · simp only [Prod.mk.injEq] at heq
      exact absurd heq.1 (by decide)
    rename_i h0
    split at heq
    · simp only [Prod.mk.injEq] at heq
      exact absurd heq.1 (by decide)
    rename_i hge
    split at heq
    · simp only [Prod.mk.injEq] at heq
      exact absurd heq.1 (by decide)
    rename_i hsaltok
    split at heq
    · simp only [Prod.mk.injEq] at heq
      exact absurd heq.1 (by decide)
    rename_i d0 hdata
    injection heq with h1 h23
    injection h23 with h2 h3
    set tI := decodePolyIdTile s.tileBits s.polyBits ref with htIdef
    set hsh := computeTileHash d0.header.x d0.header.y s.lutMask with hshdef
    set s1 : NavState :=
      { s with lut := s.lut.set hsh (eraseFirst (s.bucket hsh) tI) } with hs1def
    set targetNum := decodePolyIdTile s.tileBits s.polyBits (getTileRefOfIdx s1 tI)
      with htgdef
    set neiIdxs :=
      (getTilesAt s1 d0.header.x d0.header.y 32).filter (fun j => j ≠ tI) ++
        (List.range 8).flatMap
          (fun side => getNeighbourTilesAt s1 d0.header.x d0.header.y side 32) with hneidef
    set tiles2 := unconnectAll s.tileBits s.polyBits targetNum s1.tiles neiIdxs
      with htiles2def
    set cleared : MeshTile :=
      { salt := bumpSalt s.saltBits (s.tileAtIdx tI).salt, data := none, polys := [],
        ownsData := false } with hcldef
    have hd0 : d = d0 := by
      by_cases howns : (s.tileAtIdx tI).ownsData = true
      · rw [if_pos howns] at h3
        cases h3
      · rw [if_neg howns] at h3
        injection h3 with h4
        exact h4.symm
    subst hd0
    subst h2
    have htIlt : tI < s.maxTiles := Nat.lt_of_not_ge hge
    have hsaltlt : (s.tileAtIdx tI).salt < 2 ^ s.saltBits :=
      hsaltw tI (List.mem_range.mpr htIlt)
    have htIlt2 : tI < 2 ^ s.tileBits := lt_of_lt_of_le htIlt hmaxle
    have hsalteq : (s.tileAtIdx tI).salt =
        decodePolyIdSalt s.saltBits s.tileBits s.polyBits ref := by
      by_contra hc
      exact hsaltok hc
    have hlutlt : hsh < s.lut.length := by
      rw [hlutlen]
      exact Nat.lt_succ_of_le (computeTileHash_le_mask _ _ _)
    have htiles2len : tiles2.length = s.maxTiles := by
      rw [htiles2def, unconnectAll_length]
      exact hlen
    set rsalt := decodePolyIdSalt s.saltBits s.tileBits s.polyBits ref with hrsdef
    set base := encodePolyId s.tileBits s.polyBits rsalt tI 0 with hbasedef
    set newTile : MeshTile :=
      { salt := rsalt, data := some d, polys := connectIntLinks base d.polys,
        ownsData := fl } with hntdef
    set BIG : NavState :=
      { s with tiles := tiles2.set tI cleared,
               lut := s.lut.set hsh (eraseFirst (s.bucket hsh) tI),
               freeList := tI :: s.freeList } with hbigdef
    set S3 : NavState :=
      { BIG with tiles := BIG.tiles.set tI newTile,
                 lut := BIG.lut.set hsh (tI :: BIG.bucket hsh),
                 freeList := s.freeList } with hs3def
    have hocc : getTileAt BIG d.header.x d.header.y d.header.layer = none := by
      unfold getTileAt
      apply List.find?_eq_none.mpr
      intro k hk
      have hbuck : NavState.bucket BIG (computeTileHash d.header.x d.header.y
          BIG.lutMask) = eraseFirst (s.bucket hsh) tI := by
        show (s.lut.set hsh (eraseFirst (s.bucket hsh) tI)).getD hsh [] =
          eraseFirst (s.bucket hsh) tI
        rw [getD_set_list s.lut hsh _ hlutlt, if_pos rfl]
      rw [hbuck] at hk
      by_cases hkT : k = tI
      · subst hkT
        have hdat : (NavState.tileAtIdx BIG tI).data = none := by
          show ((tiles2.set tI cleared).getD tI default).data = none
          have hklt : tI < tiles2.length := htiles2len ▸ htIlt
          simp [List.getD_eq_getElem?_getD, List.getElem?_set, hklt, hcldef]
        rw [hdat]
        simp
      · have hdat : (NavState.tileAtIdx BIG k).data = (s.tileAtIdx k).data := by
          show ((tiles2.set tI cleared).getD k default).data = (s.tileAtIdx k).data
          have hset : (tiles2.set tI cleared).getD k default = tiles2.getD k default := by
            simp [List.getD_eq_getElem?_getD, List.getElem?_set,
              (show ¬ tI = k from fun hc => hkT hc.symm)]
          rw [hset, htiles2def, unconnectAll_getD_data]
          rfl
        rw [hdat]
        rcases hdk : (s.tileAtIdx k).data with _ | dk
        · simp
        · simp only [Bool.not_eq_true]
          by_contra hc
          rw [Bool.not_eq_false] at hc
          simp only [Bool.and_eq_true, beq_iff_eq] at hc
          have hklt : k < s.maxTiles := by
            by_contra hkge
            have : s.tileAtIdx k = default := by
              unfold NavState.tileAtIdx
              exact List.getD_eq_default _ _ (by omega)
            rw [this] at hdk
            cases hdk
          exact hkT (huniq k (List.mem_range.mpr hklt) dk
            (by simp [Option.toList, hdk]) hc.1.1 hc.1.2 hc.2)
    have halloc : allocSlot BIG ref = some (tI, s.freeList, rsalt) := by
      unfold allocSlot
      rw [if_neg h0]
      show (if tI ≥ s.maxTiles then none
        else match removeFromList (tI :: s.freeList) tI with
          | none => none
          | some rest => some (tI, rest, rsalt)) = some (tI, s.freeList, rsalt)
      rw [if_neg hge, removeFromList_cons_self]
    have hkey : addTile BIG d fl ref = (DT_SUCCESS, some (getTileRefOfIdx S3 tI), S3) := by
      unfold addTile
      rw [if_neg (by simp [hm]), if_neg (by simp [hv]), if_neg hpb, if_neg (by
        rw [hocc]
        simp), halloc]
    have hlt2 : tI < tiles2.length := htiles2len ▸ htIlt
    have hs3salt : (S3.tileAtIdx tI).salt = rsalt := by
      show ((BIG.tiles.set tI newTile).getD tI default).salt = rsalt
      simp [List.getD_eq_getElem?_getD, List.getElem?_set, List.length_set, hlt2, hntdef]
    have hs3data : (S3.tileAtIdx tI).data = some d := by
      show ((BIG.tiles.set tI newTile).getD tI default).data = some d
      simp [List.getD_eq_getElem?_getD, List.getElem?_set, List.length_set, hlt2, hntdef]
    have hrefeq : getTileRefOfIdx S3 tI = ref := by
      unfold getTileRefOfIdx
      rw [hs3salt]
      have hss : rsalt = (s.tileAtIdx tI).salt := hsalteq.symm
      rw [hss]
      exact (href.trans rfl).symm
    refine ⟨S3, ?_, ?_, hs3data⟩
    · rw [hkey, hrefeq]
    · rw [hs3salt]
  · intro sx dx flx lr hm' hv' hpb' hocc' hlr0 hlt' hnot'
    have halloc : allocSlot sx lr = none := by
      unfold allocSlot
      rw [if_neg hlr0]
      show (if decodePolyIdTile sx.tileBits sx.polyBits lr ≥ sx.maxTiles then none
        else match removeFromList sx.freeList
            (decodePolyIdTile sx.tileBits sx.polyBits lr) with
          | none => none
          | some rest => some (decodePolyIdTile sx.tileBits sx.polyBits lr, rest,
              decodePolyIdSalt sx.saltBits sx.tileBits sx.polyBits lr)) = none
      rw [if_neg (Nat.not_le.mpr hlt'), removeFromList_eq_none hnot']
    unfold addTile
    rw [if_neg (by simp [hm']), if_neg (by simp [hv']), if_neg hpb', if_neg (by
      rw [hocc']
      simp), halloc]

/-- Witness for claim C3: on the concrete two-tile mesh, removing tile 0
(which does not own its payload) and re-adding the returned payload with
lastRef 4 succeeds, reports reference 4 again, and restores the slot salt
from the reference. -/
theorem addTile_restore_roundtrip_witness :
    NavWf twoTileNav ∧
    (∃ s3 : NavState,
      addTile (removeTile twoTileNav 4).2.1 (onePolyData 0 0) false 4 =
        (DT_SUCCESS, some 4, s3) ∧
      (s3.tileAtIdx (decodePolyIdTile twoTileNav.tileBits twoTileNav.polyBits 4)).salt =
        decodePolyIdSalt twoTileNav.saltBits twoTileNav.tileBits twoTileNav.polyBits 4 ∧
      (s3.tileAtIdx (decodePolyIdTile twoTileNav.tileBits twoTileNav.polyBits 4)).data =
        some (onePolyData 0 0)) :=
  ⟨by decide,
    (addTile_restore_roundtrip twoTileNav (removeTile twoTileNav 4).2.1 (onePolyData 0 0)
      false 4 (by decide) (by decide) (by decide) (by decide) (by decide)
      (by simp [dtCeilLog2, onePolyData, Nat.clog_one_right]) (by decide)).1⟩

/-- Four-byte alignment of a size, dtAlign4: (x + 3) & ~3. -/
def dtAlign4 (x : Nat) : Nat := (x + 3) / 4 * 4

/-- Tile state blob (dtTileState header followed by dtPolyState records),
represented structurally: magic, version, the originating TileRef, and one
(flags, area) pair per polygon. -/
structure TileStateBlob where
  magic : Int
  version : Int
  ref : Nat
  polyStates : List (Nat × Nat)
deriving DecidableEq

/-- Size in bytes of a stored tile state (getTileStateSize,
DetourNavMesh.cpp lines 1296-1302); the sizeof values of the two C structs
are platform constants kept as parameters. -/
def getTileStateSize (szTileState szPolyState polyCount : Nat) : Nat :=
  dtAlign4 szTileState + dtAlign4 (szPolyState * polyCount)

/-- Blob written by storeTileState: magic, version, the current tile
reference, and each polygon flags/area pair in order. -/
def storedBlob (s : NavState) (i : Nat) : TileStateBlob :=
  { magic := DT_NAVMESH_STATE_MAGIC
    version := DT_NAVMESH_STATE_VERSION
    ref := getTileRefOfIdx s i
    polyStates := (s.tileAtIdx i).polys.map (fun p => (p.flags, p.area)) }

/-- storeTileState (DetourNavMesh.cpp lines 1309-1331) on the slot at
index i: after the buffer-size check, write magic, version, the current
tile reference, and each polygon flags/area pair. -/
def storeTileState (s : NavState) (i : Nat) (szT szP maxDataSize : Nat) :
    Nat × Option TileStateBlob :=
  match (s.tileAtIdx i).data with
  | none => (DT_FAILURE ||| DT_INVALID_PARAM, none)
  | some d =>
    if maxDataSize < getTileStateSize szT szP d.header.polyCount then
      (DT_FAILURE ||| DT_BUFFER_TOO_SMALL, none)
    else (DT_SUCCESS, some (storedBlob s i))

/-- Per-polygon restore loop of restoreTileState: flags and area of each
polygon are overwritten from the corresponding blob record.  The source
indexes the blob with the tile polygon count; every state produced by
storeTileState on the same tile has exactly that many records, which the
pointwise zip mirrors. -/
def restoredPolys (polys : List Poly) (ps : List (Nat × Nat)) : List Poly :=
  List.zipWith (fun p st => { p with flags := st.1, area := st.2 }) polys ps

/-- State after the per-polygon restore loop: the slot at index i keeps
everything but its polygon flags and areas, overwritten pointwise from the
blob records. -/
def restoredTile (t : MeshTile) (ps : List (Nat × Nat)) : MeshTile :=
  { t with polys := restoredPolys t.polys ps }

def restoredState (s : NavState) (i : Nat) (ps : List (Nat × Nat)) : NavState :=
  { s with tiles := s.tiles.set i (restoredTile (s.tileAtIdx i) ps) }

/-- restoreTileState (DetourNavMesh.cpp lines 1338-1363) on the slot at
index i: size, magic, version and TileRef guards, then the per-polygon
flags/area writes. -/
def restoreTileState (s : NavState) (i : Nat) (blob : TileStateBlob)
    (szT szP maxDataSize : Nat) : Nat × NavState :=
  match (s.tileAtIdx i).data with
  | none => (DT_FAILURE ||| DT_INVALID_PARAM, s)
  | some d =>
    if maxDataSize < getTileStateSize szT szP d.header.polyCount then
      (DT_FAILURE ||| DT_INVALID_PARAM, s)
    else if blob.magic ≠ DT_NAVMESH_STATE_MAGIC then (DT_FAILURE ||| DT_WRONG_MAGIC, s)
    else if blob.version ≠ DT_NAVMESH_STATE_VERSION then (DT_FAILURE ||| DT_WRONG_VERSION, s)
    else if blob.ref ≠ getTileRefOfIdx s i then (DT_FAILURE ||| DT_INVALID_PARAM, s)
    else (DT_SUCCESS, restoredState s i blob.polyStates)

/-- Claim C4: storing a live tile state and restoring it on the same
tile (same slot, unchanged TileRef, sufficient buffers) succeeds and
restores every polygon flags and area value exactly; if the TileRef seen
at restore time differs from the stored one (for instance the salt
changed), restore fails with INVALID_PARAM and leaves the state
untouched. -/
theorem storeTileState_restoreTileState (s s2 : NavState) (i i2 : Nat) (d d2 : TileData)
    (szT szP m1 m2 : Nat)
    (hd : (s.tileAtIdx i).data = some d)
    (hm1 : ¬ m1 < getTileStateSize szT szP d.header.polyCount)
    (hd2 : (s2.tileAtIdx i2).data = some d2)
    (hm2 : ¬ m2 < getTileStateSize szT szP d2.header.polyCount)
    (hi2 : i2 < s2.tiles.length)
    (hplen : (s2.tileAtIdx i2).polys.length = (s.tileAtIdx i).polys.length) :
    ∃ blob, storeTileState s i szT szP m1 = (DT_SUCCESS, some blob) ∧
      (getTileRefOfIdx s2 i2 = getTileRefOfIdx s i →
        ∃ s3, restoreTileState s2 i2 blob szT szP m2 = (DT_SUCCESS, s3) ∧
          ∀ j, j < (s2.tileAtIdx i2).polys.length →
            ((s3.tileAtIdx i2).polys.getD j default).flags =
              ((s.tileAtIdx i).polys.getD j default).flags ∧
            ((s3.tileAtIdx i2).polys.getD j default).area =
              ((s.tileAtIdx i).polys.getD j default).area) ∧
      (getTileRefOfIdx s2 i2 ≠ getTileRefOfIdx s i →
        restoreTileState s2 i2 blob szT szP m2 = (DT_FAILURE ||| DT_INVALID_PARAM, s2)) := by
  refine ⟨storedBlob s i, ?_, ?_, ?_⟩
  · simp only [storeTileState, hd]
    rw [if_neg hm1]
  · intro href
    refine ⟨restoredState s2 i2 ((s.tileAtIdx i).polys.map (fun p => (p.flags, p.area))),
      ?_, ?_⟩
    · simp only [restoreTileState, hd2]
      rw [if_neg hm2, if_neg (by simp [storedBlob]), if_neg (by simp [storedBlob]),
        if_neg (by simp [storedBlob, href])]
      rfl
    · intro j hj
      have hset : NavState.tileAtIdx
          (restoredState s2 i2 ((s.tileAtIdx i).polys.map (fun p => (p.flags, p.area)))) i2 =
          restoredTile (s2.tileAtIdx i2)
            ((s.tileAtIdx i).polys.map (fun p => (p.flags, p.area))) := by
        show (s2.tiles.set i2 _).getD i2 default = _
        simp [List.getD_eq_getElem?_getD, List.getElem?_set, hi2]
      rw [hset]
      unfold restoredTile
      have hj1 : j < (s.tileAtIdx i).polys.length := hplen ▸ hj
      have hz : (restoredPolys (s2.tileAtIdx i2).polys
          ((s.tileAtIdx i).polys.map (fun p => (p.flags, p.area))))[j]? =
          some { (s2.tileAtIdx i2).polys[j] with
                 flags := ((s.tileAtIdx i).polys[j]).flags
                 area := ((s.tileAtIdx i).polys[j]).area } := by
        unfold restoredPolys
        rw [List.getElem?_zipWith, List.getElem?_map, List.getElem?_eq_getElem hj,
          List.getElem?_eq_getElem hj1]
        rfl
      have hg : ((s.tileAtIdx i).polys.getD j default) = (s.tileAtIdx i).polys[j] := by
        rw [List.getD_eq_getElem?_getD, List.getElem?_eq_getElem hj1]
        rfl
      rw [List.getD_eq_getElem?_getD, hz, hg]
      exact ⟨rfl, rfl⟩
  · intro href
    simp only [restoreTileState, hd2]
    rw [if_neg hm2, if_neg (by simp [storedBlob]), if_neg (by simp [storedBlob]),
      if_pos (by simp [storedBlob]; exact fun hc => href hc.symm)]

/-- Copy of the two-tile mesh with the first polygon flags and area
overwritten, used to witness that restore brings them back. -/
def twoTileNavFlagged : NavState :=
  { twoTileNav with
    tiles := twoTileNav.tiles.set 0
      { salt := 1
        data := some (onePolyData 0 0)
        polys := [{ vertCount := 4, neis := [], flags := 9, area := 3, typ := 0, links := [] }]
        ownsData := false } }

/-- Witness for claim C4: state stored from the pristine two-tile mesh and
restored onto the flag-scribbled copy (same slot, same TileRef) restores
flags and areas; the theorem application also covers the mismatched-ref
failure branch. -/
theorem storeTileState_restoreTileState_witness :
    ∃ blob, storeTileState twoTileNav 0 12 4 1000 = (DT_SUCCESS, some blob) ∧
      (getTileRefOfIdx twoTileNavFlagged 0 = getTileRefOfIdx twoTileNav 0 →
        ∃ s3, restoreTileState twoTileNavFlagged 0 blob 12 4 1000 = (DT_SUCCESS, s3) ∧
          ∀ j, j < (twoTileNavFlagged.tileAtIdx 0).polys.length →
            ((s3.tileAtIdx 0).polys.getD j default).flags =
              ((twoTileNav.tileAtIdx 0).polys.getD j default).flags ∧
            ((s3.tileAtIdx 0).polys.getD j default).area =
              ((twoTileNav.tileAtIdx 0).polys.getD j default).area) ∧
      (getTileRefOfIdx twoTileNavFlagged 0 ≠ getTileRefOfIdx twoTileNav 0 →
        restoreTileState twoTileNavFlagged 0 blob 12 4 1000 =
          (DT_FAILURE ||| DT_INVALID_PARAM, twoTileNavFlagged)) :=
  storeTileState_restoreTileState twoTileNav twoTileNavFlagged 0 0
    (onePolyData 0 0) (onePolyData 0 0) 12 4 1000 1000
    (by decide) (by decide) (by decide) (by decide) (by decide) (by decide)

/-- Modelled from the spec: capacity of the obstacle request queue
(MAX_REQUESTS in DetourTileCache.h; the spec gives a bounded queue of 64
entries). -/
def MAX_REQUESTS : Nat := 64

/-- Modelled from the spec: capacity of the tile rebuild list (MAX_UPDATE
in DetourTileCache.h). -/
def MAX_UPDATE : Nat := 64

/-- Modelled from the spec: bound on the touched-tile set of one obstacle
(DT_MAX_TOUCHED_TILES in DetourTileCache.h). -/
def DT_MAX_TOUCHED_TILES : Nat := 8

/-- Modelled from the spec: magic number of a compressed tile header. -/
def DT_TILECACHE_MAGIC : Int := 0x444C5652

/-- Modelled from the spec: version number of a compressed tile header. -/
def DT_TILECACHE_VERSION : Int := 1

/-- Obstacle lifecycle states (DT_OBSTACLE_EMPTY, PROCESSING, PROCESSED,
REMOVING). -/
inductive ObstacleState where
  | empty
  | processing
  | processed
  | removing
deriving DecidableEq

/-- Obstacle geometry union; cylinder and axis-aligned box carry their
float fields as exact rationals. -/
inductive ObstacleGeom where
  | nothing
  | cylinder (pos : ℚ × ℚ × ℚ) (radius height : ℚ)
  | box (bmin bmax : ℚ × ℚ × ℚ)
deriving DecidableEq

/-- Obstacle slot (dtTileCacheObstacle); the intrusive next pointer is
represented by free-list membership in the store. -/
structure TileCacheObstacle where
  salt : Nat
  state : ObstacleState
  geom : ObstacleGeom
  touched : List Nat
  pending : List Nat
deriving DecidableEq

instance : Inhabited TileCacheObstacle :=
  ⟨⟨0, ObstacleState.empty, ObstacleGeom.nothing, [], []⟩⟩

/-- Compressed tile header (dtTileCacheLayerHeader), restricted to the
fields the claims read; the compressed payload bytes are opaque to every
claim below and are left out. -/
structure TCHeader where
  magic : Int
  version : Int
  tx : Int
  ty : Int
  tlayer : Int
deriving DecidableEq

/-- Compressed tile slot (dtCompressedTile); live iff header is some. -/
structure CompressedTile where
  salt : Nat
  header : Option TCHeader
  ownsData : Bool
deriving DecidableEq

instance : Inhabited CompressedTile := ⟨⟨0, none, false⟩⟩

/-- Obstacle request record (ObstacleRequest). -/
inductive ReqAction where
  | add
  | remove
deriving DecidableEq

structure ObstacleRequest where
  action : ReqAction
  ref : Nat
deriving DecidableEq

/-- State of a dtTileCache: compressed tile store (slot array, position
lookup, free list), obstacle store (slot array, free list), the bounded
request queue (m_reqs, oldest first) and the rebuild list (m_update,
head is built next).  The allocator and compressor collaborators are
tracked only by their presence. -/
structure TCState where
  maxObstacles : Nat
  maxTiles : Nat
  saltBits : Nat
  tileBits : Nat
  lutMask : Nat
  tiles : List CompressedTile
  lut : List (List Nat)
  freeTiles : List Nat
  obstacles : List TileCacheObstacle
  freeObstacles : List Nat
  reqs : List ObstacleRequest
  update : List Nat
  hasAlloc : Bool
  hasComp : Bool
deriving DecidableEq

/-- Modelled from the spec: a compressed tile reference packs (salt,
tile-index), salt in the high bits (encodeTileId in DetourTileCache.h). -/
def encodeTileId (tileBits salt it : Nat) : Nat := (salt <<< tileBits ||| it) % 2 ^ 32

/-- Modelled from the spec: salt field of a compressed tile reference. -/
def decodeTileIdSalt (saltBits tileBits ref : Nat) : Nat :=
  (ref >>> tileBits) &&& (2 ^ saltBits - 1)

/-- Modelled from the spec: tile-index field of a compressed tile
reference. -/
def decodeTileIdTile (tileBits ref : Nat) : Nat := ref &&& (2 ^ tileBits - 1)

/-- Modelled from the spec: an obstacle reference packs a 16-bit salt over
a 16-bit slot index (encodeObstacleId in DetourTileCache.h). -/
def encodeObstacleId (salt idx : Nat) : Nat := (salt <<< 16 ||| idx) % 2 ^ 32

/-- Modelled from the spec: salt field of an obstacle reference. -/
def decodeObstacleIdSalt (ref : Nat) : Nat := (ref >>> 16) &&& 0xffff

/-- Modelled from the spec: slot-index field of an obstacle reference. -/
def decodeObstacleIdObstacle (ref : Nat) : Nat := ref &&& 0xffff

/-- Slot at a given index of the compressed-tile array (m_tiles[i]). -/
def TCState.tileAtIdx (tc : TCState) (i : Nat) : CompressedTile := tc.tiles.getD i default

/-- Bucket of the tile cache position lookup (m_posLookup[h]). -/
def TCState.bucket (tc : TCState) (h : Nat) : List Nat := tc.lut.getD h []

/-- removeTile of the tile cache (DetourTileCache.cpp lines 256-317):
validate the reference, unlink from the position hash, clear the slot,
bump its salt skipping zero, and push it on the free list.  The source
dereferences tile->header for the hash key after the salt check only;
on a dead slot the model returns the same INVALID_PARAM the stale-salt
path yields. -/
def tcRemoveTile (tc : TCState) (ref : Nat) : Nat × TCState :=
  if ref = 0 then (DT_FAILURE ||| DT_INVALID_PARAM, tc)
  else
    let tileIndex := decodeTileIdTile tc.tileBits ref
    if tileIndex ≥ tc.maxTiles then (DT_FAILURE ||| DT_INVALID_PARAM, tc)
    else
      let tile := tc.tileAtIdx tileIndex
      if tile.salt ≠ decodeTileIdSalt tc.saltBits tc.tileBits ref then
        (DT_FAILURE ||| DT_INVALID_PARAM, tc)
      else
        match tile.header with
        | none => (DT_FAILURE ||| DT_INVALID_PARAM, tc)
        | some hdr =>
          let h := computeTileHash hdr.tx hdr.ty tc.lutMask
          let cleared : CompressedTile :=
            { salt := bumpSalt tc.saltBits tile.salt, header := none, ownsData := false }
          (DT_SUCCESS,
            { tc with tiles := tc.tiles.set tileIndex cleared,
                      lut := tc.lut.set h (eraseFirst (tc.bucket h) tileIndex),
                      freeTiles := tileIndex :: tc.freeTiles })

/-- addObstacle for a cylinder (DetourTileCache.cpp lines 319-350): reject
on a full request queue, pop an obstacle slot, clear it keeping the salt,
write geometry and state PROCESSING, and append an ADD request. -/
def addObstacle (tc : TCState) (pos : ℚ × ℚ × ℚ) (radius height : ℚ) :
    Nat × Option Nat × TCState :=
  if tc.reqs.length ≥ MAX_REQUESTS then (DT_FAILURE ||| DT_BUFFER_TOO_SMALL, none, tc)
  else
    match tc.freeObstacles with
    | [] => (DT_FAILURE ||| DT_OUT_OF_MEMORY, none, tc)
    | i :: rest =>
      let ob : TileCacheObstacle :=
        { salt := (tc.obstacles.getD i default).salt, state := ObstacleState.processing,
          geom := ObstacleGeom.cylinder pos radius height, touched := [], pending := [] }
      let ref := encodeObstacleId ob.salt i
      (DT_SUCCESS, some ref,
        { tc with obstacles := tc.obstacles.set i ob,
                  freeObstacles := rest,
                  reqs := tc.reqs ++ [{ action := ReqAction.add, ref := ref }] })

/-- addBoxObstacle for an axis-aligned box (DetourTileCache.cpp lines
352-382), structured like the cylinder case. -/
def addBoxObstacle (tc : TCState) (bmin bmax : ℚ × ℚ × ℚ) :
    Nat × Option Nat × TCState :=
  if tc.reqs.length ≥ MAX_REQUESTS then (DT_FAILURE ||| DT_BUFFER_TOO_SMALL, none, tc)
  else
    match tc.freeObstacles with
    | [] => (DT_FAILURE ||| DT_OUT_OF_MEMORY, none, tc)
    | i :: rest =>
      let ob : TileCacheObstacle :=
        { salt := (tc.obstacles.getD i default).salt, state := ObstacleState.processing,
          geom := ObstacleGeom.box bmin bmax, touched := [], pending := [] }
      let ref := encodeObstacleId ob.salt i
      (DT_SUCCESS, some ref,
        { tc with obstacles := tc.obstacles.set i ob,
                  freeObstacles := rest,
                  reqs := tc.reqs ++ [{ action := ReqAction.add, ref := ref }] })

/-- removeObstacle (DetourTileCache.cpp lines 421-433): a zero reference
succeeds trivially; a full request queue is rejected; otherwise a REMOVE
request is appended. -/
def removeObstacle (tc : TCState) (ref : Nat) : Nat × TCState :=
  if ref = 0 then (DT_SUCCESS, tc)
  else if tc.reqs.length ≥ MAX_REQUESTS then (DT_FAILURE ||| DT_BUFFER_TOO_SMALL, tc)
  else (DT_SUCCESS, { tc with reqs := tc.reqs ++ [{ action := ReqAction.remove, ref := ref }] })

/-- Touched-tile enqueue loop shared by the ADD and REMOVE request cases
of update (DetourTileCache.cpp lines 493-500 and 505-512): for each
touched tile, while the rebuild list is below MAX_UPDATE, append the ref
to the rebuild list unless already present and record it as pending.
Returns the new rebuild list and the pending set (in touched order). -/
def addPendingLoop : List Nat → List Nat → List Nat × List Nat
  | upd, [] => (upd, [])
  | upd, t :: ts =>
    if upd.length < MAX_UPDATE then
      let upd2 := if upd.contains t then upd else upd ++ [t]
      let r := addPendingLoop upd2 ts
      (r.1, t :: r.2)
    else addPendingLoop upd ts

/-- Effect of one obstacle request during the drain phase of update
(DetourTileCache.cpp lines 474-514).  A request whose reference no longer
resolves (bad index or stale salt) is skipped.  An ADD stores the touched
set reported by the tile query collaborator (queryTiles works on float
obstacle bounds; it enters here as the oracle touchedFn, truncated to
DT_MAX_TOUCHED_TILES) and fills pending; a REMOVE flips the state to
REMOVING and refills pending from the stored touched set. -/
def processRequest (touchedFn : Nat → List Nat) (tc : TCState) (req : ObstacleRequest) :
    TCState :=
  let idx := decodeObstacleIdObstacle req.ref
  if idx ≥ tc.maxObstacles then tc
  else
    let ob := tc.obstacles.getD idx default
    if ob.salt ≠ decodeObstacleIdSalt req.ref then tc
    else
      match req.action with
      | ReqAction.add =>
        let touched := (touchedFn idx).take DT_MAX_TOUCHED_TILES
        let r := addPendingLoop tc.update touched
        let ob2 := { ob with touched := touched, pending := r.2 }
        { tc with obstacles := tc.obstacles.set idx ob2, update := r.1 }
      | ReqAction.remove =>
        let r := addPendingLoop tc.update ob.touched
        let ob2 := { ob with state := ObstacleState.removing, pending := r.2 }
        { tc with obstacles := tc.obstacles.set idx ob2, update := r.1 }

/-- Swap-remove of the first occurrence of a value from a pending list
(DetourTileCache.cpp lines 534-540): the matching entry is overwritten
with the last entry and the count decremented. -/
def swapRemoveFirst (l : List Nat) (v : Nat) : List Nat :=
  match l.findIdx? (fun x => x = v) with
  | none => l
  | some j => (l.set j (l.getLast?.getD 0)).dropLast

/-- Per-obstacle effect of finishing the rebuild of one tile ref
(DetourTileCache.cpp lines 530-558): obstacles in PROCESSING or REMOVING
drop the ref from pending; when pending empties, PROCESSING becomes
PROCESSED, and REMOVING becomes EMPTY with the salt bumped (skipping
zero).  The second component reports whether the slot was freed. -/
def obstacleAfterBuild (ref : Nat) (ob : TileCacheObstacle) : TileCacheObstacle × Bool :=
  if ob.state = ObstacleState.processing ∨ ob.state = ObstacleState.removing then
    let pend2 := swapRemoveFirst ob.pending ref
    if pend2.isEmpty then
      if ob.state = ObstacleState.processing then
        ({ ob with pending := pend2, state := ObstacleState.processed }, false)
      else
        let ob2 :=
          { ob with pending := pend2, state := ObstacleState.empty, salt := bumpSalt 16 ob.salt }
        (ob2, true)
    else ({ ob with pending := pend2 }, false)
  else (ob, false)

/-- One iteration of the obstacle bookkeeping sweep after a tile rebuild
(the body of the loop at DetourTileCache.cpp lines 528-558): slot i is
updated through obstacleAfterBuild and pushed on the obstacle free list
head when freed. -/
def obstacleSweepStep (ref : Nat) (acc : TCState) (i : Nat) : TCState :=
  let r := obstacleAfterBuild ref (acc.obstacles.getD i default)
  { acc with obstacles := acc.obstacles.set i r.1,
             freeObstacles := if r.2 then i :: acc.freeObstacles else acc.freeObstacles }

/-- Obstacle bookkeeping sweep after one tile rebuild: every obstacle slot
is updated through obstacleAfterBuild, and freed slots are pushed on the
obstacle free list head as encountered. -/
def updateObstacleStates (tc : TCState) (ref : Nat) : TCState :=
  (List.range tc.maxObstacles).foldl (obstacleSweepStep ref) tc

/-- update of the tile cache (DetourTileCache.cpp lines 470-565): when the
rebuild list is empty, drain the request queue (touchedFn stands for the
float-based queryTiles collaborator); then, if the rebuild list is
non-empty, pop its head, rebuild that tile (buildFn stands for
buildNavMeshTile, whose status is returned and whose effect is on the
navmesh, not on this state) and sweep the obstacle states.  The upToDate
flag is computed at the very end as: rebuild list empty and request queue
empty. -/
def tcUpdate (touchedFn : Nat → List Nat) (buildFn : Nat → Nat) (tc : TCState) :
    Nat × TCState × Bool :=
  let tc1 := if tc.update.isEmpty then
      { tc.reqs.foldl (processRequest touchedFn) tc with reqs := [] }
    else tc
  match tc1.update with
  | [] => (DT_SUCCESS, tc1, tc1.update.isEmpty && tc1.reqs.isEmpty)
  | ref :: rest =>
    let status := buildFn ref
    let tc3 := updateObstacleStates { tc1 with update := rest } ref
    (status, tc3, tc3.update.isEmpty && tc3.reqs.isEmpty)

/-- Outcomes of the external collaborators driving one buildNavMeshTile
run: decompression, region, contour and polygon-mesh building (statuses
and allocation successes), the polygon count of the resulting mesh, and
the outcome of dtCreateNavMeshData with the assembled payload. -/
structure BuildOracle where
  decompressStatus : Nat
  regionsStatus : Nat
  contoursAlloc : Bool
  contoursStatus : Nat
  polyMeshAlloc : Bool
  polyMeshStatus : Nat
  npolys : Nat
  createOk : Bool
  navData : TileData
deriving DecidableEq

/-- Portion of buildNavMeshTile after the header lookup (DetourTileCache.cpp
lines 594-692): the decompression, rasterisation and builder steps with
their early failure returns, then the removal of any old tile at the
rebuilt location followed by the addTile of the assembled payload.
Obstacle rasterisation only marks the decompressed layer, which feeds the
builder collaborators; it has no effect on either state here. -/
def builderPipeline (oracle : BuildOracle) (hdr : TCHeader) (nm : NavState) :
    Nat × NavState :=
  if dtStatusFailed oracle.decompressStatus then (oracle.decompressStatus, nm)
  else if dtStatusFailed oracle.regionsStatus then (oracle.regionsStatus, nm)
  else if ¬ oracle.contoursAlloc then (DT_FAILURE ||| DT_OUT_OF_MEMORY, nm)
  else if dtStatusFailed oracle.contoursStatus then (oracle.contoursStatus, nm)
  else if ¬ oracle.polyMeshAlloc then (DT_FAILURE ||| DT_OUT_OF_MEMORY, nm)
  else if dtStatusFailed oracle.polyMeshStatus then (oracle.polyMeshStatus, nm)
  else if oracle.npolys = 0 then
    (DT_SUCCESS, (removeTile nm (getTileRefAt nm hdr.tx hdr.ty hdr.tlayer)).2.1)
  else if ¬ oracle.createOk then (DT_FAILURE, nm)
  else
    let nm1 := (removeTile nm (getTileRefAt nm hdr.tx hdr.ty hdr.tlayer)).2.1
    let r := addTile nm1 oracle.navData true 0
    if dtStatusFailed r.1 then (r.1, r.2.2)
    else (DT_SUCCESS, r.2.2)

/-- buildNavMeshTile (DetourTileCache.cpp lines 581-693) against a live
navmesh: validate the reference and collaborators, look up the compressed
tile, and run builderPipeline.  The result is none exactly when the
function reads m_tiles out of bounds (the index guard uses a strict
comparison, so index = maxTiles slips through); otherwise
some (status, navmesh after the call). -/
def buildNavMeshTile (tc : TCState) (oracle : BuildOracle) (ref : Nat) (nm : NavState) :
    Option (Nat × NavState) :=
  if ¬ tc.hasAlloc ∨ ¬ tc.hasComp then some (DT_FAILURE ||| DT_INVALID_PARAM, nm)
  else
    let idx := decodeTileIdTile tc.tileBits ref
    if idx > tc.maxTiles then some (DT_FAILURE ||| DT_INVALID_PARAM, nm)
    else
      match tc.tiles.get? idx with
      | none => none
      | some tile =>
        if tile.salt ≠ decodeTileIdSalt tc.saltBits tc.tileBits ref then
          some (DT_FAILURE ||| DT_INVALID_PARAM, nm)
        else
          match tile.header with
          | none => none
          | some hdr => some (builderPipeline oracle hdr nm)

/-- Claim C7: for every update call, the upToDate output flag is true
exactly when both the request queue and the rebuild list of the resulting
state are empty at the end of the call. -/
theorem tcUpdate_upToDate_iff (touchedFn : Nat → List Nat) (buildFn : Nat → Nat)
    (tc : TCState) :
    (tcUpdate touchedFn buildFn tc).2.2 = true ↔
      ((tcUpdate touchedFn buildFn tc).2.1.update = [] ∧
        (tcUpdate touchedFn buildFn tc).2.1.reqs = []) := by
  simp only [tcUpdate]
  split <;> simp [Bool.and_eq_true, List.isEmpty_iff]

/-- Claim C9: with the request queue at capacity, addObstacle,
addBoxObstacle and removeObstacle (with a non-null reference) all fail
with BUFFER_TOO_SMALL and return the tile cache unchanged: no obstacle
slot is consumed and neither queue nor any obstacle state or salt moves. -/
theorem obstacleRequests_full_queue (tc : TCState) (pos : ℚ × ℚ × ℚ)
    (radius height : ℚ) (bmin bmax : ℚ × ℚ × ℚ) (ref : Nat)
    (hfull : tc.reqs.length = MAX_REQUESTS) (href : ref ≠ 0) :
    addObstacle tc pos radius height = (DT_FAILURE ||| DT_BUFFER_TOO_SMALL, none, tc) ∧
    addBoxObstacle tc bmin bmax = (DT_FAILURE ||| DT_BUFFER_TOO_SMALL, none, tc) ∧
    removeObstacle tc ref = (DT_FAILURE ||| DT_BUFFER_TOO_SMALL, tc) := by
  refine ⟨?_, ?_, ?_⟩
  · unfold addObstacle
    rw [if_pos hfull.ge]
  · unfold addBoxObstacle
    rw [if_pos hfull.ge]
  · unfold removeObstacle
    rw [if_neg href, if_pos hfull.ge]

/-- Tile cache whose request queue is saturated, for the C9 witness. -/
def fullQueueTC : TCState :=
  { maxObstacles := 1
    maxTiles := 1
    saltBits := 10
    tileBits := 1
    lutMask := 0
    tiles := [{ salt := 1, header := none, ownsData := false }]
    lut := [[]]
    freeTiles := [0]
    obstacles := [{ salt := 1
                    state := ObstacleState.empty
                    geom := ObstacleGeom.nothing
                    touched := []
                    pending := [] }]
    freeObstacles := [0]
    reqs := List.replicate 64 { action := ReqAction.add, ref := 0 }
    update := []
    hasAlloc := true
    hasComp := true }

/-- Witness for claim C9: on a cache with 64 queued requests, all three
operations reject with BUFFER_TOO_SMALL and the state is unchanged. -/
theorem obstacleRequests_full_queue_witness :
    fullQueueTC.reqs.length = MAX_REQUESTS ∧
      (addObstacle fullQueueTC (0, 0, 0) 1 2 =
        (DT_FAILURE ||| DT_BUFFER_TOO_SMALL, none, fullQueueTC) ∧
      addBoxObstacle fullQueueTC (0, 0, 0) (1, 1, 1) =
        (DT_FAILURE ||| DT_BUFFER_TOO_SMALL, none, fullQueueTC) ∧
      removeObstacle fullQueueTC 5 = (DT_FAILURE ||| DT_BUFFER_TOO_SMALL, fullQueueTC)) :=
  ⟨by decide,
    obstacleRequests_full_queue fullQueueTC (0, 0, 0) 1 2 (0, 0, 0) (1, 1, 1) 5
      (by decide) (by decide)⟩

/-- Tile cache with three tile slots (maxTiles = 3, tileBits = 2), on
which reference 7 decodes to tile index 3 = maxTiles. -/
def threeSlotTC : TCState :=
  { maxObstacles := 0
    maxTiles := 3
    saltBits := 10
    tileBits := 2
    lutMask := 0
    tiles := [{ salt := 1, header := none, ownsData := false },
      { salt := 1, header := none, ownsData := false },
      { salt := 1, header := none, ownsData := false }]
    lut := [[]]
    freeTiles := [0, 1, 2]
    obstacles := []
    freeObstacles := []
    reqs := []
    update := []
    hasAlloc := true
    hasComp := true }

/-- Collaborator outcomes in which every builder step succeeds. -/
def allOkOracle : BuildOracle :=
  { decompressStatus := DT_SUCCESS
    regionsStatus := DT_SUCCESS
    contoursAlloc := true
    contoursStatus := DT_SUCCESS
    polyMeshAlloc := true
    polyMeshStatus := DT_SUCCESS
    npolys := 1
    createOk := true
    navData := onePolyData 0 0 }

/-- Claim C10 (code bug): the index guard of buildNavMeshTile uses a
strict comparison, so a reference whose decoded tile index equals
maxTiles passes the guard and the m_tiles access goes out of bounds
(result none in the model) instead of failing with INVALID_PARAM. -/
theorem buildNavMeshTile_guard_off_by_one :
    decodeTileIdTile threeSlotTC.tileBits 7 = threeSlotTC.maxTiles ∧
    ¬ decodeTileIdTile threeSlotTC.tileBits 7 > threeSlotTC.maxTiles ∧
    buildNavMeshTile threeSlotTC allOkOracle 7 twoTileNav = none := by decide

theorem getD_set_at {α : Type} [Inhabited α] (l : List α) (i : Nat) (x : α) (j : Nat) :
    (l.set i x).getD j default = if i = j ∧ i < l.length then x else l.getD j default := by
  by_cases hij : i = j
  · subst hij
    by_cases hlt : i < l.length
    · simp [List.getD_eq_getElem?_getD, List.getElem?_set, hlt]
    · rw [List.set_eq_of_length_le (Nat.not_lt.mp hlt)]
      simp [hlt]
  · simp [List.getD_eq_getElem?_getD, List.getElem?_set, hij]

theorem obstacleSweep_foldl_length (ref n : Nat) (tc0 : TCState) :
    ((List.range n).foldl (obstacleSweepStep ref) tc0).obstacles.length =
      tc0.obstacles.length := by
  induction n with
  | zero => rfl
  | succ n ih =>
    rw [List.range_succ, List.foldl_append, List.foldl_cons, List.foldl_nil]
    simp [obstacleSweepStep, ih]

theorem obstacleSweep_foldl_getD (ref n : Nat) (tc0 : TCState) :
    ∀ i, (((List.range n).foldl (obstacleSweepStep ref) tc0).obstacles).getD i default =
      if i < n ∧ i < tc0.obstacles.length then
        (obstacleAfterBuild ref (tc0.obstacles.getD i default)).1
      else tc0.obstacles.getD i default := by
  induction n with
  | zero =>
    intro i
    simp
  | succ n ih =>
    intro i
    rw [List.range_succ, List.foldl_append, List.foldl_cons, List.foldl_nil]
    have hlen := obstacleSweep_foldl_length ref n tc0
    set A := (List.range n).foldl (obstacleSweepStep ref) tc0 with hA
    have hAn : A.obstacles.getD n default = tc0.obstacles.getD n default := by
      rw [ih n]
      simp
    simp only [obstacleSweepStep]
    rw [getD_set_at]
    by_cases hin : n = i
    · subst hin
      by_cases hlt : n < tc0.obstacles.length
      · rw [if_pos ⟨rfl, by rw [hlen]; exact hlt⟩, hAn,
          if_pos ⟨Nat.lt_succ_self n, hlt⟩]
      · rw [if_neg (fun hc => hlt (by rw [← hlen]; exact hc.2)), ih n]
        simp [hlt]
    · rw [if_neg (fun hc => hin hc.1), ih i]
      by_cases hig : i < n ∧ i < tc0.obstacles.length
      · rw [if_pos hig, if_pos ⟨Nat.lt_succ_of_lt hig.1, hig.2⟩]
      · rw [if_neg hig,
          if_neg (fun hc => hig ⟨Nat.lt_of_le_of_ne (Nat.lt_succ_iff.mp hc.1)
            (fun he => hin he.symm), hc.2⟩)]

/-- Claim C2: every free event routes the slot salt through bumpSalt,
which increments modulo the salt field width and replaces a resulting
zero by one, so it never returns zero: (a) bumpSalt is non-zero and
equals the increment mod 2 ^ saltBits with zero mapped to one; (b) a
successful navmesh removeTile sets the salt of the freed slot to bumpSalt
of its previous salt; (c) a successful tile cache removeTile does the
same; (d) an obstacle slot moved from REMOVING to EMPTY by the update
sweep has its salt bumped the same way over the 16-bit obstacle salt
field.  Slots are created with salt 1 and salts are rewritten only by
these free events, so a live slot never carries salt zero. -/
theorem saltNeverZeroOnFree (saltBits salt : Nat)
    (s : NavState) (ref st : Nat) (s2 : NavState) (od : Option TileData)
    (hlen : s.tiles.length = s.maxTiles)
    (heq : removeTile s ref = (st, s2, od)) (hst : st = DT_SUCCESS)
    (tc : TCState) (tref tst : Nat) (tc2 : TCState)
    (htlen : tc.tiles.length = tc.maxTiles)
    (hteq : tcRemoveTile tc tref = (tst, tc2)) (htst : tst = DT_SUCCESS)
    (tco : TCState) (bref i : Nat)
    (hio : i < tco.maxObstacles) (hil : i < tco.obstacles.length)
    (hrem : (tco.obstacles.getD i default).state = ObstacleState.removing)
    (hemp : ((updateObstacleStates tco bref).obstacles.getD i default).state =
      ObstacleState.empty) :
    (bumpSalt saltBits salt ≠ 0 ∧
      bumpSalt saltBits salt =
        if (salt + 1) % 2 ^ saltBits = 0 then 1 else (salt + 1) % 2 ^ saltBits) ∧
    (s2.tiles.getD (decodePolyIdTile s.tileBits s.polyBits ref) default).salt =
      bumpSalt s.saltBits
        (s.tiles.getD (decodePolyIdTile s.tileBits s.polyBits ref) default).salt ∧
    (tc2.tiles.getD (decodeTileIdTile tc.tileBits tref) default).salt =
      bumpSalt tc.saltBits
        (tc.tiles.getD (decodeTileIdTile tc.tileBits tref) default).salt ∧
    ((updateObstacleStates tco bref).obstacles.getD i default).salt =
      bumpSalt 16 (tco.obstacles.getD i default).salt := by
  refine ⟨⟨bumpSalt_ne_zero saltBits salt, bumpSalt_eq_mod saltBits salt⟩, ?_, ?_, ?_⟩
  · subst hst
    simp only [removeTile] at heq
    split at heq
    · simp only [Prod.mk.injEq] at heq
      exact absurd heq.1 (by decide)
    rename_i h0
    split at heq
    · simp only [Prod.mk.injEq] at heq
      exact absurd heq.1 (by decide)
    rename_i hge
    split at heq
    · simp only [Prod.mk.injEq] at heq
      exact absurd heq.1 (by decide)
    rename_i hsaltok
    split at heq
    · simp only [Prod.mk.injEq] at heq
      exact absurd heq.1 (by decide)
    rename_i d hdata
    injection heq with h1 h23
    injection h23 with h2 h3
    set tI := decodePolyIdTile s.tileBits s.polyBits ref with htIdef
    set hsh := computeTileHash d.header.x d.header.y s.lutMask with hshdef
    set s1 : NavState :=
      { s with lut := s.lut.set hsh (eraseFirst (s.bucket hsh) tI) } with hs1def
    set targetNum := decodePolyIdTile s.tileBits s.polyBits (getTileRefOfIdx s1 tI)
      with htgdef
    set neiIdxs :=
      (getTilesAt s1 d.header.x d.header.y 32).filter (fun j => j ≠ tI) ++
        (List.range 8).flatMap
          (fun side => getNeighbourTilesAt s1 d.header.x d.header.y side 32) with hneidef
    set tiles2 := unconnectAll s.tileBits s.polyBits targetNum s1.tiles neiIdxs
      with htiles2def
    set cleared : MeshTile :=
      { salt := bumpSalt s.saltBits (s.tileAtIdx tI).salt, data := none, polys := [],
        ownsData := false } with hcldef
    have htIlt : tI < s.maxTiles := Nat.lt_of_not_ge hge
    have htilesEq : s2.tiles = tiles2.set tI cleared := by rw [← h2]
    have htiles2len : tiles2.length = s.maxTiles := by
      rw [htiles2def, unconnectAll_length]
      exact hlen
    have hlt : tI < tiles2.length := htiles2len ▸ htIlt
    rw [htilesEq]
    have hcl : (tiles2.set tI cleared).getD tI default = cleared := by
      simp [List.getD_eq_getElem?_getD, List.getElem?_set, hlt]
    rw [hcl]
    rfl
  · subst htst
    simp only [tcRemoveTile] at hteq
    split at hteq
    · simp only [Prod.mk.injEq] at hteq
      exact absurd hteq.1 (by decide)
    rename_i ht0
    split at hteq
    · simp only [Prod.mk.injEq] at hteq
      exact absurd hteq.1 (by decide)
    rename_i htge
    split at hteq
    · simp only [Prod.mk.injEq] at hteq
      exact absurd hteq.1 (by decide)
    rename_i htsalt
    split at hteq
    · simp only [Prod.mk.injEq] at hteq
      exact absurd hteq.1 (by decide)
    rename_i hdr hhdr
    injection hteq with ht1 ht2
    set tJ := decodeTileIdTile tc.tileBits tref with htJdef
    set th := computeTileHash hdr.tx hdr.ty tc.lutMask with hthdef
    set tcleared : CompressedTile :=
      { salt := bumpSalt tc.saltBits (tc.tileAtIdx tJ).salt, header := none,
        ownsData := false } with htcldef
    have htJlt : tJ < tc.maxTiles := Nat.lt_of_not_ge htge
    have h2tiles : tc2.tiles = tc.tiles.set tJ tcleared := by rw [← ht2]
    have hltJ : tJ < tc.tiles.length := htlen ▸ htJlt
    rw [h2tiles]
    have htclg : (tc.tiles.set tJ tcleared).getD tJ default = tcleared := by
      simp [List.getD_eq_getElem?_getD, List.getElem?_set, hltJ]
    rw [htclg]
    rfl
  · have hgetD := obstacleSweep_foldl_getD bref tco.maxObstacles tco i
    simp only [updateObstacleStates] at hemp ⊢
    rw [hgetD, if_pos ⟨hio, hil⟩] at hemp ⊢
    set ob := tco.obstacles.getD i default with hobdef
    simp only [obstacleAfterBuild] at hemp ⊢
    rw [if_pos (Or.inr hrem)] at hemp ⊢
    by_cases hpe : (swapRemoveFirst ob.pending bref).isEmpty = true
    · rw [if_pos hpe] at hemp ⊢
      have hnp : ¬ ob.state = ObstacleState.processing := by
        rw [hrem]
        decide
      rw [if_neg hnp]
    · rw [if_neg hpe] at hemp
      simp only at hemp
      rw [hrem] at hemp
      exact absurd hemp (by decide)

/-- Tile cache with one live compressed tile (salt 1, reference 2 under
tileBits = 1) and one obstacle in REMOVING state (salt 3) whose only
pending tile reference is 9, used by the concrete witnesses below. -/
def liveTC : TCState :=
  { maxObstacles := 1
    maxTiles := 1
    saltBits := 10
    tileBits := 1
    lutMask := 0
    tiles := [{ salt := 1
                header := some { magic := DT_TILECACHE_MAGIC
                                 version := DT_TILECACHE_VERSION
                                 tx := 0
                                 ty := 0
                                 tlayer := 0 }
                ownsData := true }]
    lut := [[0]]
    freeTiles := []
    obstacles := [{ salt := 3
                    state := ObstacleState.removing
                    geom := ObstacleGeom.nothing
                    touched := [9]
                    pending := [9] }]
    freeObstacles := []
    reqs := []
    update := []
    hasAlloc := true
    hasComp := true }

/-- Witness for claim C2: on the two-tile mesh the removal of tile 0
succeeds and its slot salt becomes bumpSalt 10 1 = 2; on the live tile
cache the removal of compressed tile 0 succeeds with the same salt
update; and the REMOVING obstacle swept with its pending reference 9
turns EMPTY with salt bumpSalt 16 3 = 4. -/
theorem saltNeverZeroOnFree_witness :
    (removeTile twoTileNav 4).1 = DT_SUCCESS ∧
    (tcRemoveTile liveTC 2).1 = DT_SUCCESS ∧
    (liveTC.obstacles.getD 0 default).state = ObstacleState.removing ∧
    ((updateObstacleStates liveTC 9).obstacles.getD 0 default).state =
      ObstacleState.empty ∧
    ((bumpSalt 10 1 ≠ 0 ∧
      bumpSalt 10 1 = if (1 + 1) % 2 ^ 10 = 0 then 1 else (1 + 1) % 2 ^ 10) ∧
    ((removeTile twoTileNav 4).2.1.tiles.getD
        (decodePolyIdTile twoTileNav.tileBits twoTileNav.polyBits 4) default).salt =
      bumpSalt twoTileNav.saltBits
        (twoTileNav.tiles.getD
          (decodePolyIdTile twoTileNav.tileBits twoTileNav.polyBits 4) default).salt ∧
    ((tcRemoveTile liveTC 2).2.tiles.getD
        (decodeTileIdTile liveTC.tileBits 2) default).salt =
      bumpSalt liveTC.saltBits
        (liveTC.tiles.getD (decodeTileIdTile liveTC.tileBits 2) default).salt ∧
    ((updateObstacleStates liveTC 9).obstacles.getD 0 default).salt =
      bumpSalt 16 (liveTC.obstacles.getD 0 default).salt) :=
  ⟨by decide, by decide, by decide, by decide,
    saltNeverZeroOnFree 10 1 twoTileNav 4 (removeTile twoTileNav 4).1
      (removeTile twoTileNav 4).2.1 (removeTile twoTileNav 4).2.2 (by decide) rfl
      (by decide) liveTC 2 (tcRemoveTile liveTC 2).1 (tcRemoveTile liveTC 2).2
      (by decide) rfl (by decide) liveTC 9 0 (by decide) (by decide) (by decide)
      (by decide)⟩

/-- Payload whose header magic is wrong, standing for assembled tile data
that the final addTile of a rebuild rejects. -/
def badMagicData : TileData :=
  { header := { magic := 0
                version := DT_NAVMESH_VERSION
                x := 0
                y := 0
                layer := 0
                polyCount := 1 }
    polys := [] }

/-- Collaborator outcomes where every builder step succeeds but the
assembled payload is rejected by the final addTile. -/
def rejectedPayloadOracle : BuildOracle :=
  { allOkOracle with navData := badMagicData }

/-- Claim C6 counterexample: on the live tile cache over the two-tile
navmesh, a rebuild whose final addTile rejects the assembled payload
returns a failure status, yet the previously live navmesh tile at
(0, 0, 0) is no longer present afterwards: the old tile is removed before
the final addTile runs, so a failure of that last step does not leave the
old tile intact. -/
theorem buildNavMeshTile_failure_old_tile_lost :
    (getTileAt twoTileNav 0 0 0).isSome = true ∧
    (buildNavMeshTile liveTC rejectedPayloadOracle 2 twoTileNav).isSome = true ∧
    dtStatusFailed
      (((buildNavMeshTile liveTC rejectedPayloadOracle 2 twoTileNav).getD
        (0, twoTileNav)).1) = true ∧
    getTileAt
      (((buildNavMeshTile liveTC rejectedPayloadOracle 2 twoTileNav).getD
        (0, twoTileNav)).2) 0 0 0 = none := by decide

theorem builderPipeline_frame (oracle : BuildOracle) (hdr : TCHeader) (nm : NavState)
    (st : Nat) (nm2 : NavState) (h : builderPipeline oracle hdr nm = (st, nm2))
    (hfail : dtStatusFailed st = true) :
    nm2 = nm ∨
      (dtStatusFailed (addTile (removeTile nm
          (getTileRefAt nm hdr.tx hdr.ty hdr.tlayer)).2.1 oracle.navData true 0).1 =
            true ∧
        nm2 = (addTile (removeTile nm
          (getTileRefAt nm hdr.tx hdr.ty hdr.tlayer)).2.1 oracle.navData true 0).2.2) := by
  simp only [builderPipeline] at h
  split at h
  · injection h with h1 h2
    exact Or.inl h2.symm
  rename_i hdec
  split at h
  · injection h with h1 h2
    exact Or.inl h2.symm
  rename_i hreg
  split at h
  · injection h with h1 h2
    exact Or.inl h2.symm
  rename_i hca
  split at h
  · injection h with h1 h2
    exact Or.inl h2.symm
  rename_i hcs
  split at h
  · injection h with h1 h2
    exact Or.inl h2.symm
  rename_i hpa
  split at h
  · injection h with h1 h2
    exact Or.inl h2.symm
  rename_i hps
  split at h
  · injection h with h1 h2
    rw [← h1] at hfail
    exact absurd hfail (by decide)
  rename_i hnp
  split at h
  · injection h with h1 h2
    exact Or.inl h2.symm
  rename_i hco
  split at h
  · injection h with h1 h2
    exact Or.inr ⟨by rw [h1]; exact hfail, h2.symm⟩
  · injection h with h1 h2
    rw [← h1] at hfail
    exact absurd hfail (by decide)

/-- Claim C6 (amended): when buildNavMeshTile returns a failure status,
either the navmesh is unchanged (every failure up to and including
dtCreateNavMeshData happens before any tile is touched), or the failure
came from the final addTile of the assembled payload, in which case the
old tile at the rebuilt location has already been removed and the
resulting navmesh is exactly the post-removal state after that failed
addTile. -/
theorem buildNavMeshTile_failure_frame (tc : TCState) (oracle : BuildOracle)
    (ref : Nat) (nm : NavState) (st : Nat) (nm2 : NavState)
    (heq : buildNavMeshTile tc oracle ref nm = some (st, nm2))
    (hfail : dtStatusFailed st = true) :
    nm2 = nm ∨
      ∃ tile, tc.tiles.get? (decodeTileIdTile tc.tileBits ref) = some tile ∧
        ∃ hdr, tile.header = some hdr ∧
          dtStatusFailed (addTile (removeTile nm
            (getTileRefAt nm hdr.tx hdr.ty hdr.tlayer)).2.1 oracle.navData true 0).1 =
              true ∧
          nm2 = (addTile (removeTile nm
            (getTileRefAt nm hdr.tx hdr.ty hdr.tlayer)).2.1 oracle.navData true 0).2.2 := by
  simp only [buildNavMeshTile] at heq
  split at heq
  · injection heq with h
    injection h with h1 h2
    exact Or.inl h2.symm
  rename_i hac
  split at heq
  · injection heq with h
    injection h with h1 h2
    exact Or.inl h2.symm
  rename_i hguard
  split at heq
  · exact Option.noConfusion heq
  rename_i tile htile
  split at heq
  · injection heq with h
    injection h with h1 h2
    exact Or.inl h2.symm
  rename_i hsalt
  split at heq
  · exact Option.noConfusion heq
  rename_i hdr hhdr
  injection heq with h
  rcases builderPipeline_frame oracle hdr nm st nm2 h hfail with hl | hr
  · exact Or.inl hl
  · exact Or.inr ⟨tile, htile, hdr, hhdr, hr.1, hr.2⟩

/-- Collaborator outcomes whose decompression step fails outright. -/
def failDecompressOracle : BuildOracle :=
  { allOkOracle with decompressStatus := DT_FAILURE }

/-- Witness for claim C6 (amended): with decompression failing on the live
tile cache, the rebuild fails and the theorem applies; here the first
disjunct holds, the navmesh being returned unchanged. -/
theorem buildNavMeshTile_failure_frame_witness :
    buildNavMeshTile liveTC failDecompressOracle 2 twoTileNav =
      some (DT_FAILURE, twoTileNav) ∧
    dtStatusFailed DT_FAILURE = true ∧
    (twoTileNav = twoTileNav ∨
      ∃ tile, liveTC.tiles.get? (decodeTileIdTile liveTC.tileBits 2) = some tile ∧
        ∃ hdr, tile.header = some hdr ∧
          dtStatusFailed (addTile (removeTile twoTileNav
            (getTileRefAt twoTileNav hdr.tx hdr.ty hdr.tlayer)).2.1
            failDecompressOracle.navData true 0).1 = true ∧
          twoTileNav = (addTile (removeTile twoTileNav
            (getTileRefAt twoTileNav hdr.tx hdr.ty hdr.tlayer)).2.1
            failDecompressOracle.navData true 0).2.2) :=
  ⟨by decide, by decide,
    buildNavMeshTile_failure_frame liveTC failDecompressOracle 2 twoTileNav DT_FAILURE
      twoTileNav (by decide) (by decide)⟩

set_option allowUnsafeReducibility true
attribute [local semireducible] Rat.mul Rat.sub Rat.add

/-- BVH node of a tile (dtBVNode): quantised bounds as three 16-bit
values each, and i: a leaf holds the polygon index (i greater or equal 0),
an internal node holds the negated escape offset to its subtree's end. -/
structure BVNode where
  bmin : Nat × Nat × Nat
  bmax : Nat × Nat × Nat
  i : Int
deriving DecidableEq

instance : Inhabited BVNode := ⟨⟨(0, 0, 0), (0, 0, 0), 0⟩⟩

/-- Polygon of a tile as the query reads it: the dereferenced vertex
coordinates (tile->verts[p->verts[j]*3] for j below vertCount, floats as
exact rationals) and the polygon type tag. -/
structure QPoly where
  verts : List (ℚ × ℚ × ℚ)
  typ : Nat
deriving DecidableEq

instance : Inhabited QPoly := ⟨⟨[], 0⟩⟩

/-- The slice of a mesh tile that queryPolygonsInTile reads: the header
world bounds and quantisation factor, the polygon array and the optional
BVH node array (tile->bvTree with header->bvNodeCount entries). -/
structure QTile where
  bmin : ℚ × ℚ × ℚ
  bmax : ℚ × ℚ × ℚ
  bvQuantFactor : ℚ
  polys : List QPoly
  bvTree : Option (List BVNode)
deriving DecidableEq

/-- Modelled from the spec: dtClamp of DetourCommon.h. -/
def dtClamp (v mn mx : ℚ) : ℚ := if v < mn then mn else if v > mx then mx else v

/-- Modelled from the spec: dtOverlapBounds of DetourCommon.h, inclusive
axis-aligned box overlap on exact coordinates. -/
def dtOverlapBounds (amin amax bmin bmax : ℚ × ℚ × ℚ) : Bool :=
  decide (amin.1 ≤ bmax.1) && decide (amax.1 ≥ bmin.1) &&
  decide (amin.2.1 ≤ bmax.2.1) && decide (amax.2.1 ≥ bmin.2.1) &&
  decide (amin.2.2 ≤ bmax.2.2) && decide (amax.2.2 ≥ bmin.2.2)

/-- Modelled from the spec: dtOverlapQuantBounds of DetourCommon.h, the
same inclusive overlap on quantised 16-bit bounds. -/
def dtOverlapQuantBounds (amin amax bmin bmax : Nat × Nat × Nat) : Bool :=
  decide (amin.1 ≤ bmax.1) && decide (amax.1 ≥ bmin.1) &&
  decide (amin.2.1 ≤ bmax.2.1) && decide (amax.2.1 ≥ bmin.2.1) &&
  decide (amin.2.2 ≤ bmax.2.2) && decide (amax.2.2 ≥ bmin.2.2)

/-- Cast of a non-negative float to uint16_t as the query's quantisation
performs it: truncation, wrapped to the 16-bit range. -/
def u16ofQ (x : ℚ) : Nat := (Rat.floor x).toNat % 2 ^ 16

/-- Quantised query box of queryPolygonsInTile (DetourNavMesh.cpp lines
756-769): clamp each query corner to the tile bounds, shift by the tile
origin, scale by bvQuantFactor, truncate to uint16, then round the minima
down to even (bmin &&& 0xfffe) and the maxima up to odd (bmax ||| 1). -/
def quantizeQueryBounds (t : QTile) (qmin qmax : ℚ × ℚ × ℚ) :
    (Nat × Nat × Nat) × (Nat × Nat × Nat) :=
  let minx := dtClamp qmin.1 t.bmin.1 t.bmax.1 - t.bmin.1
  let miny := dtClamp qmin.2.1 t.bmin.2.1 t.bmax.2.1 - t.bmin.2.1
  let minz := dtClamp qmin.2.2 t.bmin.2.2 t.bmax.2.2 - t.bmin.2.2
  let maxx := dtClamp qmax.1 t.bmin.1 t.bmax.1 - t.bmin.1
  let maxy := dtClamp qmax.2.1 t.bmin.2.1 t.bmax.2.1 - t.bmin.2.1
  let maxz := dtClamp qmax.2.2 t.bmin.2.2 t.bmax.2.2 - t.bmin.2.2
  ((u16ofQ (t.bvQuantFactor * minx) &&& 0xfffe,
    u16ofQ (t.bvQuantFactor * miny) &&& 0xfffe,
    u16ofQ (t.bvQuantFactor * minz) &&& 0xfffe),
   (u16ofQ (t.bvQuantFactor * maxx + 1) ||| 1,
    u16ofQ (t.bvQuantFactor * maxy + 1) ||| 1,
    u16ofQ (t.bvQuantFactor * maxz + 1) ||| 1))

/-- Iterative escape-offset traversal of queryPolygonsInTile
(DetourNavMesh.cpp lines 771-790).  Position p stands for the node
pointer (the loop exits when it passes the node count), acc accumulates
appended references newest first (its length is n), and the result is
returned oldest first.  Each iteration advances the position by at least
one, so fuel bounded below by the node count makes the fuel guard
unreachable. -/
def bvTraverse (nodes : List BVNode) (base : Nat) (qb qB : Nat × Nat × Nat)
    (maxPolys : Nat) : Nat → Nat → List Nat → List Nat
  | 0, _, acc => acc.reverse
  | fuel + 1, p, acc =>
    match nodes.get? p with
    | none => acc.reverse
    | some node =>
      let overlap := dtOverlapQuantBounds qb qB node.bmin node.bmax
      let isLeaf := 0 ≤ node.i
      let acc2 := if isLeaf ∧ overlap = true ∧ acc.length < maxPolys then
          (base ||| node.i.toNat) :: acc
        else acc
      let p2 := if overlap = true ∨ isLeaf then p + 1 else p + (-node.i).toNat
      bvTraverse nodes base qb qB maxPolys fuel p2 acc2

/-- Componentwise minimum (dtVmin). -/
def qmin3 (a b : ℚ × ℚ × ℚ) : ℚ × ℚ × ℚ :=
  (min a.1 b.1, min a.2.1 b.2.1, min a.2.2 b.2.2)

/-- Componentwise maximum (dtVmax). -/
def qmax3 (a b : ℚ × ℚ × ℚ) : ℚ × ℚ × ℚ :=
  (max a.1 b.1, max a.2.1 b.2.1, max a.2.2 b.2.2)

/-- Polygon bounds of the linear scan (DetourNavMesh.cpp lines 798-806):
the running min and max over the polygon's vertices, seeded from the
first vertex. -/
def polyBounds (verts : List (ℚ × ℚ × ℚ)) : (ℚ × ℚ × ℚ) × (ℚ × ℚ × ℚ) :=
  match verts with
  | [] => ((0, 0, 0), (0, 0, 0))
  | v :: vs => (vs.foldl qmin3 v, vs.foldl qmax3 v)

/-- Linear scan of queryPolygonsInTile without a BVH (DetourNavMesh.cpp
lines 792-814): skip off-mesh connection polygons, compute each polygon's
bounds, and append base ||| index for overlapping polygons while below
maxPolys.  acc holds appended references newest first; the result is
returned oldest first. -/
def queryLinearAux (base : Nat) (qmin qmax : ℚ × ℚ × ℚ) (maxPolys : Nat) :
    List QPoly → Nat → List Nat → List Nat
  | [], _, acc => acc.reverse
  | p :: ps, i, acc =>
    if p.typ = DT_POLYTYPE_OFFMESH_CONNECTION then
      queryLinearAux base qmin qmax maxPolys ps (i + 1) acc
    else
      if dtOverlapBounds qmin qmax (polyBounds p.verts).1 (polyBounds p.verts).2 = true ∧
          acc.length < maxPolys then
        queryLinearAux base qmin qmax maxPolys ps (i + 1) ((base ||| i) :: acc)
      else queryLinearAux base qmin qmax maxPolys ps (i + 1) acc

/-- queryPolygonsInTile (DetourNavMesh.cpp lines 745-817): the BVH
traversal over the quantised query box when the tile has a BVH section,
the linear polygon scan otherwise.  base stands for getPolyRefBase of the
tile; the result lists the returned references in order. -/
def queryPolygonsInTile (t : QTile) (base maxPolys : Nat) (qmin qmax : ℚ × ℚ × ℚ) :
    List Nat :=
  match t.bvTree with
  | some nodes =>
    let qb := quantizeQueryBounds t qmin qmax
    bvTraverse nodes base qb.1 qb.2 maxPolys (nodes.length + 1) 0 []
  | none => queryLinearAux base qmin qmax maxPolys t.polys 0 []

/-- Square-polygon tile with a single-leaf BVH used by the concrete C5
developments: world bounds (0,0,0)-(100,100,100), quantisation factor 1,
one ground polygon spanning x,z in [10,20] at y = 0, and its leaf
quantised to exactly that box. -/
def qtileBVH : QTile :=
  { bmin := (0, 0, 0)
    bmax := (100, 100, 100)
    bvQuantFactor := 1
    polys := [{ verts := [(10, 0, 10), (20, 0, 10), (20, 0, 20), (10, 0, 20)]
                typ := 0 }]
    bvTree := some [{ bmin := (10, 0, 10), bmax := (20, 0, 20), i := 0 }] }

/-- Claim C5 counterexample: on the square-polygon tile, the query box
with x,z in [21,22] misses the polygon (bounds [10,20]), so the linear
path returns nothing; but the quantised query minimum 21 is rounded down
to the even value 20 (bmin &&& 0xfffe), which touches the leaf's
quantised bound, so the BVH path returns the polygon.  The two paths do
not return the same set for every query: the traversal over
conservatively rounded bounds can return a strict superset of the linear
scan. -/
theorem queryPolygonsInTile_bvh_linear_differ :
    queryPolygonsInTile qtileBVH 0 8 (21, 0, 21) (22, 1, 22) = [0] ∧
    queryPolygonsInTile { qtileBVH with bvTree := none } 0 8 (21, 0, 21) (22, 1, 22) =
      [] := by decide

/-- Containment of one quantised box inside another, componentwise. -/
def quantContains (obmin obmax ibmin ibmax : Nat × Nat × Nat) : Prop :=
  obmin.1 ≤ ibmin.1 ∧ obmin.2.1 ≤ ibmin.2.1 ∧ obmin.2.2 ≤ ibmin.2.2 ∧
  ibmax.1 ≤ obmax.1 ∧ ibmax.2.1 ≤ obmax.2.1 ∧ ibmax.2.2 ≤ obmax.2.2

theorem dtOverlapQuantBounds_mono (qb qB obmin obmax ibmin ibmax : Nat × Nat × Nat)
    (hc : quantContains obmin obmax ibmin ibmax)
    (h : dtOverlapQuantBounds qb qB ibmin ibmax = true) :
    dtOverlapQuantBounds qb qB obmin obmax = true := by
  unfold dtOverlapQuantBounds at h ⊢
  simp only [Bool.and_eq_true, decide_eq_true_eq] at h ⊢
  obtain ⟨c1, c2, c3, c4, c5, c6⟩ := hc
  omega

/-- Well-formed escape-offset forest over the node positions from p
(inclusive) to r (exclusive): a leaf occupies one position and is
followed by the rest of the forest; an internal node at p carries escape
offset q - p where q ends its subtree, bounds every node strictly inside
(p, q), and contains its children as a forest on (p+1, q), followed by the
rest of the forest from q.  This is the shape dtCreateNavMeshData's
subdivide emits for tile->bvTree. -/
inductive BVWf (nodes : List BVNode) : Nat → Nat → Prop where
  | nil (p : Nat) : BVWf nodes p p
  | leaf (p r : Nat) (node : BVNode) :
      nodes.get? p = some node → 0 ≤ node.i →
      BVWf nodes (p + 1) r → BVWf nodes p r
  | internal (p q r : Nat) (node : BVNode) :
      nodes.get? p = some node → node.i < 0 → p + (-node.i).toNat = q →
      p + 1 ≤ q → q ≤ r →
      (∀ k nk, p < k → k < q → nodes.get? k = some nk →
        quantContains node.bmin node.bmax nk.bmin nk.bmax) →
      BVWf nodes (p + 1) q → BVWf nodes q r → BVWf nodes p r

theorem BVWf_le {nodes : List BVNode} {p r : Nat} (h : BVWf nodes p r) : p ≤ r := by
  induction h with
  | nil p => exact Nat.le_refl p
  | leaf p r node _ _ _ ih => omega
  | internal p q r node _ _ _ hpq hqr _ _ _ ih1 ih2 => omega

theorem bvTraverse_step (nodes : List BVNode) (base : Nat) (qb qB : Nat × Nat × Nat)
    (maxPolys fuel p : Nat) (acc : List Nat) (node : BVNode)
    (hget : nodes.get? p = some node) :
    bvTraverse nodes base qb qB maxPolys (fuel + 1) p acc =
      bvTraverse nodes base qb qB maxPolys fuel
        (if dtOverlapQuantBounds qb qB node.bmin node.bmax = true ∨ 0 ≤ node.i
          then p + 1 else p + (-node.i).toNat)
        (if 0 ≤ node.i ∧ dtOverlapQuantBounds qb qB node.bmin node.bmax = true ∧
            acc.length < maxPolys
          then (base ||| node.i.toNat) :: acc else acc) := by
  simp only [bvTraverse]
  rw [hget]

theorem bvTraverse_off_end (nodes : List BVNode) (base : Nat) (qb qB : Nat × Nat × Nat)
    (maxPolys fuel p : Nat) (acc : List Nat) (hp : nodes.length ≤ p) :
    bvTraverse nodes base qb qB maxPolys (fuel + 1) p acc = acc.reverse := by
  simp only [bvTraverse]
  rw [List.get?_len_le hp]

/-- The traversal started anywhere on a well-formed forest reaches the
forest's end having visited every overlapping leaf inside it (as long as
the result budget cannot fill up), never shrinking the accumulator and
spending at most one fuel unit per position. -/
theorem bvTraverse_visits (nodes : List BVNode) (base : Nat) (qb qB : Nat × Nat × Nat)
    (maxPolys : Nat) {p r : Nat} (hwf : BVWf nodes p r) :
    ∀ fuel acc, r - p ≤ fuel →
      ∃ fuel2 acc2,
        bvTraverse nodes base qb qB maxPolys (fuel + 1) p acc =
          bvTraverse nodes base qb qB maxPolys (fuel2 + 1) r acc2 ∧
        fuel - (r - p) ≤ fuel2 ∧
        (∀ x, x ∈ acc → x ∈ acc2) ∧
        acc2.length ≤ acc.length + (r - p) ∧
        (acc.length + (r - p) ≤ maxPolys →
          ∀ k nk, p ≤ k → k < r → nodes.get? k = some nk → 0 ≤ nk.i →
            dtOverlapQuantBounds qb qB nk.bmin nk.bmax = true →
            (base ||| nk.i.toNat) ∈ acc2) := by
  induction hwf with
  | nil p =>
    intro fuel acc hfuel
    exact ⟨fuel, acc, rfl, by omega, fun x hx => hx, by omega,
      fun _ k nk hk1 hk2 _ _ _ => absurd (Nat.lt_of_le_of_lt hk1 hk2) (Nat.lt_irrefl p)⟩
  | leaf p r node hget hleaf hsub ih =>
    intro fuel acc hfuel
    have hp1r : p + 1 ≤ r := BVWf_le hsub
    obtain ⟨g, rfl⟩ : ∃ g, fuel = g + 1 := ⟨fuel - 1, by omega⟩
    have hstep := bvTraverse_step nodes base qb qB maxPolys (g + 1) p acc node hget
    rw [if_pos (Or.inr hleaf)] at hstep
    set acc1 := if 0 ≤ node.i ∧ dtOverlapQuantBounds qb qB node.bmin node.bmax = true ∧
        acc.length < maxPolys then (base ||| node.i.toNat) :: acc else acc with hacc1
    have hlen1 : acc1.length ≤ acc.length + 1 := by
      rw [hacc1]
      split
      · simp
      · simp
    obtain ⟨fuel2, acc2, heq2, hf2, hm2, hl2, hv2⟩ := ih g acc1 (by omega)
    refine ⟨fuel2, acc2, by rw [hstep, heq2], by omega, ?_, by omega, ?_⟩
    · intro x hx
      apply hm2
      rw [hacc1]
      split
      · exact List.mem_cons_of_mem _ hx
      · exact hx
    · intro hbud k nk hk1 hk2 hgetk hkleaf hkov
      by_cases hkp : k = p
      · subst hkp
        rw [hget] at hgetk
        obtain rfl : node = nk := Option.some.inj hgetk
        apply hm2
        rw [hacc1, if_pos ⟨hkleaf, hkov, by omega⟩]
        exact List.mem_cons_self _ _
      · exact hv2 (by omega) k nk (by omega) hk2 hgetk hkleaf hkov
  | internal p q r node hget hneg hq hpq hqr hcont hch hrest ih1 ih2 =>
    intro fuel acc hfuel
    obtain ⟨g, rfl⟩ : ∃ g, fuel = g + 1 := ⟨fuel - 1, by omega⟩
    have hstep := bvTraverse_step nodes base qb qB maxPolys (g + 1) p acc node hget
    have hnotleaf : ¬ 0 ≤ node.i := by omega
    have haccneg : ¬ (0 ≤ node.i ∧
        dtOverlapQuantBounds qb qB node.bmin node.bmax = true ∧
        acc.length < maxPolys) := fun hc => hnotleaf hc.1
    rw [if_neg haccneg] at hstep
    by_cases hov : dtOverlapQuantBounds qb qB node.bmin node.bmax = true
    · rw [if_pos (Or.inl hov)] at hstep
      obtain ⟨f2, a2, heq2, hf2, hm2, hl2, hv2⟩ := ih1 g acc (by omega)
      obtain ⟨f3, a3, heq3, hf3, hm3, hl3, hv3⟩ := ih2 f2 a2 (by omega)
      refine ⟨f3, a3, by rw [hstep, heq2, heq3], by omega,
        fun x hx => hm3 x (hm2 x hx), by omega, ?_⟩
      intro hbud k nk hk1 hk2 hgetk hkleaf hkov
      by_cases hkp : k = p
      · subst hkp
        rw [hget] at hgetk
        obtain rfl : node = nk := Option.some.inj hgetk
        exact absurd hkleaf hnotleaf
      · by_cases hkq : k < q
        · exact hm3 _ (hv2 (by omega) k nk (by omega) hkq hgetk hkleaf hkov)
        · exact hv3 (by omega) k nk (by omega) hk2 hgetk hkleaf hkov
    · rw [if_neg (fun hc => hc.elim hov hnotleaf), hq] at hstep
      obtain ⟨f3, a3, heq3, hf3, hm3, hl3, hv3⟩ := ih2 g acc (by omega)
      refine ⟨f3, a3, by rw [hstep, heq3], by omega, hm3, by omega, ?_⟩
      intro hbud k nk hk1 hk2 hgetk hkleaf hkov
      by_cases hkp : k = p
      · subst hkp
        rw [hget] at hgetk
        obtain rfl : node = nk := Option.some.inj hgetk
        exact absurd hkleaf hnotleaf
      · by_cases hkq : k < q
        · exact absurd (dtOverlapQuantBounds_mono qb qB node.bmin node.bmax
            nk.bmin nk.bmax (hcont k nk (by omega) hkq hgetk) hkov) hov
        · exact hv3 (by omega) k nk (by omega) hk2 hgetk hkleaf hkov

/-- Every reference the linear scan returns beyond its accumulator names a
non-offmesh polygon of the scanned list whose bounds overlap the query. -/
theorem queryLinearAux_mem (base : Nat) (qmin qmax : ℚ × ℚ × ℚ) (maxPolys : Nat) :
    ∀ (ps : List QPoly) (i : Nat) (acc : List Nat) (x : Nat),
      x ∈ queryLinearAux base qmin qmax maxPolys ps i acc →
      x ∈ acc ∨ ∃ j p, ps.get? j = some p ∧ x = base ||| (i + j) ∧
        p.typ ≠ DT_POLYTYPE_OFFMESH_CONNECTION ∧
        dtOverlapBounds qmin qmax (polyBounds p.verts).1 (polyBounds p.verts).2 =
          true := by
  intro ps
  induction ps with
  | nil =>
    intro i acc x hx
    left
    simpa [queryLinearAux] using hx
  | cons p ps ih =>
    intro i acc x hx
    simp only [queryLinearAux] at hx
    split at hx
    · rcases ih (i + 1) acc x hx with h | ⟨j, p2, hj, hxeq, htyp, hovl⟩
      · exact Or.inl h
      · exact Or.inr ⟨j + 1, p2, hj, by rw [hxeq, Nat.add_assoc, Nat.add_comm 1 j],
          htyp, hovl⟩
    rename_i htyp0
    split at hx
    · rename_i hcond
      rcases ih (i + 1) ((base ||| i) :: acc) x hx with h | ⟨j, p2, hj, hxeq, htyp, hovl⟩
      · rcases List.mem_cons.mp h with h0 | h0
        · exact Or.inr ⟨0, p, rfl, by rw [h0, Nat.add_zero], htyp0, hcond.1⟩
        · exact Or.inl h0
      · exact Or.inr ⟨j + 1, p2, hj, by rw [hxeq, Nat.add_assoc, Nat.add_comm 1 j],
          htyp, hovl⟩
    · rcases ih (i + 1) acc x hx with h | ⟨j, p2, hj, hxeq, htyp, hovl⟩
      · exact Or.inl h
      · exact Or.inr ⟨j + 1, p2, hj, by rw [hxeq, Nat.add_assoc, Nat.add_comm 1 j],
          htyp, hovl⟩

/-- Claim C5 (amended): with a well-formed escape-offset BVH whose leaves
cover their polygons conservatively under the quantised query box (what
dtCreateNavMeshData establishes, combined with the query's inclusive
rounding bmin &&& 0xfffe and bmax ||| 1), and a result budget of at least
the node count, every reference the linear scan returns is also returned
by the BVH traversal.  The converse inclusion is false: quantisation can
make the traversal return polygons the exact-arithmetic scan rejects, so
equality of the two result sets does not hold. -/
theorem queryPolygonsInTile_linear_subset_bvh (t : QTile) (nodes : List BVNode)
    (base maxPolys : Nat) (qmin qmax : ℚ × ℚ × ℚ)
    (htree : t.bvTree = some nodes)
    (hwf : BVWf nodes 0 nodes.length)
    (hcover : ∀ j p, t.polys.get? j = some p →
      p.typ ≠ DT_POLYTYPE_OFFMESH_CONNECTION →
      ∃ k nk, nodes.get? k = some nk ∧ nk.i = (j : Int) ∧
        (dtOverlapBounds qmin qmax (polyBounds p.verts).1 (polyBounds p.verts).2 =
            true →
          dtOverlapQuantBounds (quantizeQueryBounds t qmin qmax).1
            (quantizeQueryBounds t qmin qmax).2 nk.bmin nk.bmax = true))
    (hmax : nodes.length ≤ maxPolys) :
    ∀ x ∈ queryPolygonsInTile { t with bvTree := none } base maxPolys qmin qmax,
      x ∈ queryPolygonsInTile t base maxPolys qmin qmax := by
  intro x hx
  have hlin : x ∈ queryLinearAux base qmin qmax maxPolys t.polys 0 [] := by
    simpa [queryPolygonsInTile] using hx
  rcases queryLinearAux_mem base qmin qmax maxPolys t.polys 0 [] x hlin with
    h | ⟨j, p, hj, hxeq, htyp, hov⟩
  · simp at h
  obtain ⟨k, nk, hk, hki, himp⟩ := hcover j p hj htyp
  have hkleaf : 0 ≤ nk.i := by
    rw [hki]
    exact Int.natCast_nonneg j
  have hkov := himp hov
  obtain ⟨f2, a2, heq2, hf2a, hm2a, hl2a, hvis⟩ :=
    bvTraverse_visits nodes base (quantizeQueryBounds t qmin qmax).1
      (quantizeQueryBounds t qmin qmax).2 maxPolys hwf nodes.length [] (Nat.le_refl _)
  have hklen : k < nodes.length := by
    by_contra hge
    rw [List.get?_len_le (Nat.le_of_not_lt hge)] at hk
    exact Option.noConfusion hk
  have hxmem : x ∈ a2 := by
    have hin := hvis (by simpa using hmax) k nk (Nat.zero_le k) hklen hk hkleaf hkov
    rw [hxeq, Nat.zero_add]
    rw [hki, Int.toNat_natCast] at hin
    exact hin
  simp only [queryPolygonsInTile]
  rw [htree]
  simp only []
  rw [heq2, bvTraverse_off_end nodes base _ _ maxPolys f2 nodes.length a2
    (Nat.le_refl _)]
  exact List.mem_reverse.mpr hxmem

/-- Witness for claim C5 (amended): on the square-polygon tile with its
single-leaf BVH, a query box inside the polygon makes the linear scan
return the polygon, and the theorem applies: the BVH path returns it as
well. -/
theorem queryPolygonsInTile_linear_subset_bvh_witness :
    queryPolygonsInTile { qtileBVH with bvTree := none } 0 8 (12, 0, 12) (15, 1, 15) =
      [0] ∧
    ∀ x ∈ queryPolygonsInTile { qtileBVH with bvTree := none } 0 8 (12, 0, 12)
      (15, 1, 15),
      x ∈ queryPolygonsInTile qtileBVH 0 8 (12, 0, 12) (15, 1, 15) :=
  ⟨by decide,
    queryPolygonsInTile_linear_subset_bvh qtileBVH
      [{ bmin := (10, 0, 10), bmax := (20, 0, 20), i := 0 }] 0 8 (12, 0, 12) (15, 1, 15)
      rfl
      (BVWf.leaf 0 1 { bmin := (10, 0, 10), bmax := (20, 0, 20), i := 0 } rfl (by decide)
        (BVWf.nil 1))
      (fun j p hj htyp => by
        cases j with
        | zero =>
          obtain rfl := Option.some.inj hj
          exact ⟨0, { bmin := (10, 0, 10), bmax := (20, 0, 20), i := 0 }, rfl, by decide,
            by decide⟩
        | succ n => exact Option.noConfusion hj)
      (by decide)⟩

end Detour
